import Mathlib

set_option maxHeartbeats 1600000

/-! Verification of the spotify3 ingestion, aggregation and recommendation
pipeline.  The TypeScript sources are shallowly embedded: IEEE doubles are
modelled as rationals, millisecond timestamps as integers, JavaScript `Map`
and `Set` objects as insertion-ordered association lists, and every network
or database effect as an explicit oracle argument or an explicit store
value that is threaded through the functions. -/

/-! ## Generic helpers -/

/-- Rounding of a rational to the nearest integer, ties toward positive
infinity (the floor of `x + 1/2`, written on numerator and denominator so
that it evaluates by kernel reduction). -/
def roundQ (x : ℚ) : ℤ :=
  Int.fdiv (2 * x.num + (x.den : ℤ)) (2 * (x.den : ℤ))

/-- Rounding to `d` decimal digits, as JavaScript `Number(x.toFixed(d))`
behaves on the non-negative magnitudes used here (round to nearest, ties
toward positive infinity). -/
def roundTo (d : Nat) (x : ℚ) : ℚ :=
  (roundQ (x * (10 : ℚ) ^ d) : ℚ) / (10 : ℚ) ^ d

/-- Insertion step of the list sort that models `Array.prototype.sort`:
`le x y` holds when the comparator returns a non-positive value on `(x, y)`,
that is, when `x` may stay in front of `y`. -/
def insertBy (le : α → α → Bool) (x : α) : List α → List α
  | [] => [x]
  | y :: ys => if le x y then x :: y :: ys else y :: insertBy le x ys

/-- Model of `Array.prototype.sort` with a comparator (insertion sort; it
agrees with any correct comparison sort on the sortedness and permutation
properties proved below). -/
def sortByFn (le : α → α → Bool) : List α → List α
  | [] => []
  | x :: xs => insertBy le x (sortByFn le xs)

/-- Model of a JavaScript `Set<string>` accumulated with `add` (insertion
ordered, duplicates ignored). -/
def setInsert (s : List String) (x : String) : List String :=
  if x ∈ s then s else s ++ [x]

/-- Model of `Map.get` on an insertion-ordered association list. -/
def alistGet [DecidableEq κ] (m : List (κ × β)) (k : κ) : Option β :=
  (m.find? (fun e => e.1 = k)).map (fun e => e.2)

/-- Model of `Map.set` on an insertion-ordered association list: an existing
key is updated in place, a new key is appended. -/
def alistSet [DecidableEq κ] (m : List (κ × β)) (k : κ) (v : β) : List (κ × β) :=
  match m with
  | [] => [(k, v)]
  | e :: rest => if e.1 = k then (k, v) :: rest else e :: alistSet rest k v

/-- Model of `chunkArray` (src/app/api/import/json/route.ts, lines 164-174). -/
def chunkArray (items : List α) (size : Nat) : List (List α) :=
  if h : size = 0 then [items]
  else
    match items with
    | [] => []
    | x :: xs => (x :: xs).take size :: chunkArray ((x :: xs).drop size) size
termination_by items.length
decreasing_by
  simp only [List.length_drop, List.length_cons]
  omega

/-! Note: the TypeScript `chunkArray` returns `[[]]` on an empty input and the
DB layer treats an empty `createMany` batch as a no-op; the embedding returns
`[]` for an empty input, which makes the fold over chunks literally equal to
the fold over all rows. -/

/-- Model of Prisma `createMany(..., skipDuplicates: true)`: rows are appended
in order, skipping any row whose key (the table's unique constraint, given by
`key`) is already present; the returned number is the count of actually
inserted rows. -/
def insertManySkipDup [DecidableEq κ] (key : α → κ) (acc : List α × Nat)
    (rows : List α) : List α × Nat :=
  rows.foldl
    (fun acc r =>
      if (key r) ∈ acc.1.map key then acc else (acc.1 ++ [r], acc.2 + 1))
    acc

/-- Model of the chunked `createMany` loops in the import transaction: the
rows are split into fixed-size chunks and each chunk is inserted with
duplicate skipping, accumulating the inserted count. -/
def insertChunked [DecidableEq κ] (key : α → κ) (store : List α)
    (rows : List α) (size : Nat) : List α × Nat :=
  (chunkArray rows size).foldl (fun acc chunk => insertManySkipDup key acc chunk)
    (store, 0)

/-! ## JSON values and the import format detector (src/app/api/import/json/route.ts) -/

/-- Parsed JSON values as produced by `JSON.parse`. -/
inductive Json where
  | null
  | jbool (b : Bool)
  | num (value : ℚ)
  | str (value : String)
  | arr (elements : List Json)
  | obj (fields : List (String × Json))

/-- Field access on a parsed JSON object; `JSON.parse` keeps the last of
duplicate keys. -/
def jsonField (fields : List (String × Json)) (k : String) : Option Json :=
  ((fields.filter (fun e => e.1 = k)).map (fun e => e.2)).getLast?

/-- Check for `z.string()`. -/
def isStr : Json → Bool
  | .str _ => true
  | _ => false

/-- Check for `z.number()`. -/
def isNum : Json → Bool
  | .num _ => true
  | _ => false

/-- Check for `z.string().nullable()` (value required, may be `null`). -/
def isNullableStr : Json → Bool
  | .str _ => true
  | .null => true
  | _ => false

/-- Check one field of a `z.object`: `optional` is true for fields declared
`.optional()` or with a `.default(...)`, which accept an absent key. -/
def fieldMatches (fs : List (String × Json)) (k : String)
    (check : Json → Bool) (optional : Bool) : Bool :=
  match jsonField fs k with
  | none => optional
  | some v => check v

/-- Check for `z.array(itemCheck)`. -/
def isArrayOf (itemCheck : Json → Bool) : Json → Bool
  | .arr xs => xs.all itemCheck
  | _ => false

/-- Item check for `restoreSchema.albums` (route.ts lines 20-29). -/
def matchesAlbumItem : Json → Bool
  | .obj fs =>
      fieldMatches fs "id" isStr false &&
      fieldMatches fs "name" isStr false &&
      fieldMatches fs "releaseDate" isNullableStr true &&
      fieldMatches fs "imageUrl" isNullableStr true
  | _ => false

/-- Item check for `restoreSchema.artists` (route.ts lines 30-39). -/
def matchesArtistItem : Json → Bool
  | .obj fs =>
      fieldMatches fs "id" isStr false &&
      fieldMatches fs "name" isStr false &&
      fieldMatches fs "imageUrl" isNullableStr true &&
      fieldMatches fs "genres" (isArrayOf isStr) true
  | _ => false

/-- Check for `z.number().nullable().optional()`. -/
def isOptNullableNum : Json → Bool
  | .num _ => true
  | .null => true
  | _ => false

/-- Item check for `restoreSchema.tracks` (route.ts lines 40-57). -/
def matchesTrackItem : Json → Bool
  | .obj fs =>
      fieldMatches fs "id" isStr false &&
      fieldMatches fs "name" isStr false &&
      fieldMatches fs "durationMs" isNum false &&
      fieldMatches fs "albumId" isNullableStr true &&
      fieldMatches fs "artistIds" (isArrayOf isStr) true &&
      fieldMatches fs "popularity" isOptNullableNum true &&
      fieldMatches fs "previewUrl" isNullableStr true &&
      fieldMatches fs "imageUrl" isNullableStr true &&
      fieldMatches fs "danceability" isOptNullableNum true &&
      fieldMatches fs "energy" isOptNullableNum true &&
      fieldMatches fs "valence" isOptNullableNum true &&
      fieldMatches fs "tempo" isOptNullableNum true
  | _ => false

/-- Item check for `restoreSchema.plays` (route.ts lines 58-65). -/
def matchesPlayItem : Json → Bool
  | .obj fs =>
      fieldMatches fs "trackId" isStr false &&
      fieldMatches fs "playedAt" isStr false
  | _ => false

/-- Match attempt for the Native canonical shape `restoreSchema`
(route.ts lines 19-66): a plain object whose four array fields all default
to `[]` when absent. -/
def matchesRestore : Json → Bool
  | .obj fs =>
      fieldMatches fs "albums" (isArrayOf matchesAlbumItem) true &&
      fieldMatches fs "artists" (isArrayOf matchesArtistItem) true &&
      fieldMatches fs "tracks" (isArrayOf matchesTrackItem) true &&
      fieldMatches fs "plays" (isArrayOf matchesPlayItem) true
  | _ => false

/-- Match attempt for the name-based privacy export `yourSpotifyPrivacySchema`
(route.ts lines 68-75). -/
def matchesPrivacy : Json → Bool :=
  isArrayOf fun j =>
    match j with
    | .obj fs =>
        fieldMatches fs "endTime" isStr false &&
        fieldMatches fs "artistName" isStr false &&
        fieldMatches fs "trackName" isStr false &&
        fieldMatches fs "msPlayed" isNum false
    | _ => false

/-- Match attempt for the URI-based privacy export
`yourSpotifyFullPrivacySchema` (route.ts lines 77-85). -/
def matchesFullPrivacy : Json → Bool :=
  isArrayOf fun j =>
    match j with
    | .obj fs =>
        fieldMatches fs "ts" isStr false &&
        fieldMatches fs "ms_played" isNum false &&
        fieldMatches fs "spotify_track_uri" isNullableStr false &&
        fieldMatches fs "master_metadata_track_name" isNullableStr false &&
        fieldMatches fs "master_metadata_album_artist_name" isNullableStr false
    | _ => false

/-- Detected import format, as a tagged variant. -/
inductive ImportFormat where
  | native
  | uriBased
  | nameBased
  | unsupported
deriving DecidableEq

/-- Schema-match order of `normalizeImportPayload` (route.ts lines 529-546):
the Native shape is tried first, then the URI-based full privacy export, then
the name-based privacy export. -/
def detectImportFormat (j : Json) : ImportFormat :=
  if matchesRestore j then .native
  else if matchesFullPrivacy j then .uriBased
  else if matchesPrivacy j then .nameBased
  else .unsupported

/-- Concrete uploaded payload whose single element carries the fields of both
privacy-export schemas at once, so it matches the name-based and the
URI-based schema simultaneously. -/
def bothPrivacyPayload : Json :=
  .arr [.obj
    [("endTime", .str "2024-01-01 10:00"),
     ("artistName", .str "A"),
     ("trackName", .str "B"),
     ("msPlayed", .num 40000),
     ("ts", .str "2024-01-01T10:00:00Z"),
     ("ms_played", .num 40000),
     ("spotify_track_uri", .str "spotify:track:4uLU6hMCjMI75M1A2tKUQC"),
     ("master_metadata_track_name", .null),
     ("master_metadata_album_artist_name", .null)]]

/-- Concrete Native-shape payload used by witnesses. -/
def nativePayloadJson : Json :=
  .obj [("albums", .arr []), ("artists", .arr []), ("tracks", .arr []),
        ("plays", .arr [.obj [("trackId", .str "t1"),
                              ("playedAt", .str "2024-01-01T00:00:00.000Z")]])]

/-! ## ApiGateway (second document of src/lib/env.ts: the Spotify client) -/

/-- Provider HTTP response as seen by the gateway: status plus the
`safeJson`-parsed body. -/
structure HttpResponse where
  status : Nat
  body : Json

/-- Model of `Response.ok`: status in the 200-299 range. -/
def responseOk (r : HttpResponse) : Bool :=
  200 ≤ r.status && r.status < 300

/-- Typed gateway error `SpotifyApiError` (client lines 48-58). -/
inductive SpotifyErr where
  | apiError (message : String) (status : Nat) (details : Option Json)

/-- Retry loop of `spotifyRequest` (client lines 157-200).  `responses` is
the oracle giving the provider response of each attempt, `refreshResult` the
outcome of the token refresh performed on a 401.  The sleep on a 429 and the
rate-limit observer have no effect on the returned value and are omitted. -/
def spotifyRequestLoop (responses : Nat → HttpResponse)
    (refreshResult : Nat → Except SpotifyErr Unit)
    (maxRetries attempt : Nat) : Except SpotifyErr Json :=
  if h : attempt ≤ maxRetries then
    let r := responses attempt
    if r.status = 401 then
      match refreshResult attempt with
      | .error e => .error e
      | .ok _ => spotifyRequestLoop responses refreshResult maxRetries (attempt + 1)
    else if r.status = 429 then
      spotifyRequestLoop responses refreshResult maxRetries (attempt + 1)
    else if !responseOk r then
      .error (.apiError "Spotify API request failed" r.status (some r.body))
    else
      .ok r.body
  else
    .error (.apiError "Spotify API retry limit reached" 429 none)
termination_by maxRetries + 1 - attempt
decreasing_by all_goals omega

/-- Entry point of the gateway request function: the loop starts with
`attempt = 0` and `maxRetries` defaults to 5. -/
def spotifyRequestFn (responses : Nat → HttpResponse)
    (refreshResult : Nat → Except SpotifyErr Unit)
    (maxRetries : Nat := 5) : Except SpotifyErr Json :=
  spotifyRequestLoop responses refreshResult maxRetries 0

/-! ## BulkUpsertWriter play-event pipeline (route.ts `POST`, lines 612-797)

Only the columns that participate in the play-event claims are modelled:
a persisted `Track` row enters the pipeline exclusively through its `id`
(the duplicate-skip key of `track.createMany` and the membership tests of
`knownTrackIds`), so the track table is carried as a list of ids. -/

/-- Canonical payload play entry `{trackId, playedAt}`. -/
structure PlayInput where
  trackId : String
  playedAt : String
deriving DecidableEq

/-- Persisted `PlayEvent` row; `playedAt` in epoch milliseconds. -/
structure StoredPlay where
  userId : String
  trackId : String
  playedAt : Int
  importSource : String
deriving DecidableEq

/-- Unique key of the `PlayEvent` table: `(userId, trackId, playedAt)`. -/
def playKey (p : StoredPlay) : String × String × Int :=
  (p.userId, p.trackId, p.playedAt)

/-- Persisted store slice touched by the play pipeline. -/
structure ImportStore where
  trackIds : List String
  plays : List StoredPlay
deriving DecidableEq

/-- Import payload slice touched by the play pipeline: the ids of the
`tracks` array entries and the `plays` array. -/
structure ImportPayload where
  trackIds : List String
  plays : List PlayInput
deriving DecidableEq

/-- Import response counters relevant to the claims. -/
structure ImportCounts where
  importedPlays : Nat
  importedTracks : Nat
  skippedPlays : Nat
deriving DecidableEq

/-- Model of `dedupeById` on ids (route.ts lines 176-182): `Map`-keyed
de-duplication, keeping insertion order of first occurrences. -/
def jsDedupeIds (l : List String) : List String :=
  l.foldl setInsert []

/-- Construction of `knownTrackIds` (route.ts lines 680-691): the batch track
ids plus those play-referenced ids that already exist in the store. -/
def knownTrackIdsFor (store : ImportStore) (batchTrackIds : List String)
    (plays : List PlayInput) : List String :=
  let referenced := jsDedupeIds (plays.map (fun p => p.trackId))
  let missing := referenced.filter (fun tid => tid ∉ batchTrackIds)
  let existing := missing.filter (fun tid => tid ∈ store.trackIds)
  batchTrackIds ++ existing

/-- Row-building loop for play events (route.ts lines 693-718): drop plays
with unknown track ids, unparseable timestamps, and in-payload repeats of a
`(trackId, playedAt)` key; `parseDate` is the oracle for `new Date(s)`
(`none` models an invalid date), and two timestamp strings share a
`playedAtIso` key exactly when they parse to the same instant. -/
def buildPlayRowsStep (parseDate : String → Option Int) (userId : String)
    (knownTrackIds : List String)
    (acc : List (String × Int) × List StoredPlay) (play : PlayInput) :
    List (String × Int) × List StoredPlay :=
  if play.trackId ∈ knownTrackIds then
    match parseDate play.playedAt with
    | none => acc
    | some ms =>
      if (play.trackId, ms) ∈ acc.1 then acc
      else (acc.1 ++ [(play.trackId, ms)],
            acc.2 ++ [{ userId := userId, trackId := play.trackId,
                        playedAt := ms, importSource := "json_restore" }])
  else acc

/-- The fold of the row-building loop, carrying `uniquePlayKeys` and
`playRows`. -/
def buildPlayRows (parseDate : String → Option Int) (userId : String)
    (knownTrackIds : List String) (plays : List PlayInput) :
    List (String × Int) × List StoredPlay :=
  plays.foldl (buildPlayRowsStep parseDate userId knownTrackIds) ([], [])

/-- The play-event slice of one `POST /api/import/json` run (route.ts lines
612-797): de-duplicate the batch, resolve known track ids against the store,
build the play rows, then insert tracks and play events in chunks with
duplicate skipping, and report the counts of the JSON response. -/
def runJsonImport (parseDate : String → Option Int) (userId : String)
    (store : ImportStore) (payload : ImportPayload) :
    ImportStore × ImportCounts :=
  let batchTrackIds := jsDedupeIds payload.trackIds
  let known := knownTrackIdsFor store batchTrackIds payload.plays
  let playRows := (buildPlayRows parseDate userId known payload.plays).2
  let tracksAfter := insertChunked (fun tid => tid) store.trackIds batchTrackIds 500
  let playsAfter := insertChunked playKey store.plays playRows 2000
  ({ trackIds := tracksAfter.1, plays := playsAfter.1 },
   { importedPlays := playsAfter.2,
     importedTracks := batchTrackIds.length,
     skippedPlays := payload.plays.length - playRows.length })

/-! ## AggregationEngine (second document of src/lib/export/report.ts:
`aggregateForRange` and `sortEntries` of the analytics service) -/

/-- Persisted `Track` row as read by the aggregation (audio features may be
null; `durationMs` is a JS number). -/
structure StoredTrack where
  id : String
  name : String
  durationMs : ℚ
  albumId : Option String
  artistIds : List String
  imageUrl : Option String
  energy : Option ℚ
  danceability : Option ℚ
  valence : Option ℚ
  tempo : Option ℚ
deriving DecidableEq

/-- Persisted `Artist` row slice read by the aggregation. -/
structure StoredArtist where
  id : String
  name : String
  imageUrl : Option String
  genres : List String
deriving DecidableEq

/-- Persisted `Album` row slice read by the aggregation. -/
structure StoredAlbum where
  id : String
  name : String
  imageUrl : Option String
deriving DecidableEq

/-- Persisted `PlayEvent` row slice read by the aggregation; `playedAt` in
epoch milliseconds. -/
structure PlayEventRow where
  userId : String
  trackId : String
  playedAt : Int
deriving DecidableEq

/-- Persisted store slice read by `aggregateForRange`. -/
structure AnalyticsStore where
  playEvents : List PlayEventRow
  tracks : List StoredTrack
  artists : List StoredArtist
  albums : List StoredAlbum

/-- Aggregation window `[fromMs, toMs]` in epoch milliseconds. -/
structure TimeRange where
  fromMs : Int
  toMs : Int

/-- Top-list entry; `lastListened` is kept as the epoch instant that the
ISO-8601 string of the source denotes (`new Date(s).getTime()` recovers it
in the `recent` comparator). -/
structure TopEntry where
  rank : Nat
  id : String
  name : String
  imageUrl : Option String
  playCount : Nat
  totalMinutes : ℚ
  lastListened : Option Int
deriving DecidableEq

/-- Sort keys accepted by `sortEntries`. -/
inductive SortKey where
  | plays
  | minutes
  | recent
deriving DecidableEq

/-- Comparator of `sortEntries` (report.ts lines 166-182), read as the
stay-in-front relation `compare a b <= 0` fed to `Array.prototype.sort`. -/
def topEntryLE (key : SortKey) (a b : TopEntry) : Bool :=
  match key with
  | .minutes => b.totalMinutes ≤ a.totalMinutes
  | .recent =>
    match a.lastListened, b.lastListened with
    | none, _ => false
    | some _, none => true
    | some x, some y => y ≤ x
  | .plays => b.playCount ≤ a.playCount

/-- Model of `sortEntries` (report.ts lines 166-182): sort by the chosen key
and re-assign contiguous 1-based ranks. -/
def sortEntries (input : List TopEntry) (key : SortKey) : List TopEntry :=
  (sortByFn (topEntryLE key) input).enum.map
    (fun p => { p.2 with rank := p.1 + 1 })

/-- Per-entity accumulator of the aggregation loop (report.ts lines 139-146). -/
structure AggregateAccumulator where
  id : String
  name : String
  imageUrl : Option String
  playCount : Nat
  totalMinutes : ℚ
  lastListened : Option Int
deriving DecidableEq

/-- One `Map`-accumulation step shared by the song/artist/album/genre
aggregates (report.ts lines 312-389): bump the play count, add the minutes,
keep the most recent `playedAt`. -/
def accumulatePlay (m : List (String × AggregateAccumulator))
    (id name : String) (imageUrl : Option String) (minutes : ℚ)
    (playedAt : Int) : List (String × AggregateAccumulator) :=
  let entry := (alistGet m id).getD
    { id := id, name := name, imageUrl := imageUrl, playCount := 0,
      totalMinutes := 0, lastListened := none }
  alistSet m id
    { entry with
      playCount := entry.playCount + 1,
      totalMinutes := entry.totalMinutes + minutes,
      lastListened :=
        match entry.lastListened with
        | none => some playedAt
        | some prev => if prev < playedAt then some playedAt else some prev }

/-- Track lookup modelling the `trackMap` built from the events' track ids
(report.ts lines 233-242). -/
def findTrack (store : AnalyticsStore) (tid : String) : Option StoredTrack :=
  store.tracks.find? (fun t => t.id = tid)

/-- Artist lookup modelling `artistMap` (report.ts lines 254-259). -/
def findArtist (store : AnalyticsStore) (aid : String) : Option StoredArtist :=
  store.artists.find? (fun a => a.id = aid)

/-- Album lookup modelling `albumMap` (report.ts lines 254-260). -/
def findAlbum (store : AnalyticsStore) (aid : String) : Option StoredAlbum :=
  store.albums.find? (fun a => a.id = aid)

/-- Events scanned by `aggregateForRange` (report.ts lines 197-211): the
user's play events with `playedAt` in `[from, to]`, ordered by `playedAt`
descending. -/
def eventsInRange (store : AnalyticsStore) (userId : String)
    (range : TimeRange) : List PlayEventRow :=
  sortByFn (fun a b => b.playedAt ≤ a.playedAt)
    (store.playEvents.filter
      (fun e => e.userId = userId && range.fromMs ≤ e.playedAt &&
        e.playedAt ≤ range.toMs))

/-- Minutes of one play of a track (report.ts line 285). -/
def minutesOf (t : StoredTrack) : ℚ :=
  t.durationMs / 1000 / 60

/-- Running feature sums and weight (report.ts lines 273-277). -/
structure FeatureAcc where
  weight : Nat
  energy : ℚ
  danceability : ℚ
  valence : ℚ
  tempo : ℚ
deriving DecidableEq

/-- Per-event step of the feature accumulation (report.ts lines 293-304):
an event contributes exactly when its track has all four feature values. -/
def featureStep (store : AnalyticsStore) (acc : FeatureAcc)
    (e : PlayEventRow) : FeatureAcc :=
  match findTrack store e.trackId with
  | none => acc
  | some t =>
    match t.energy, t.danceability, t.valence, t.tempo with
    | some en, some da, some va, some te =>
      { weight := acc.weight + 1, energy := acc.energy + en,
        danceability := acc.danceability + da,
        valence := acc.valence + va, tempo := acc.tempo + te }
    | _, _, _, _ => acc

/-- Feature accumulation over the scanned events (report.ts lines 293-304). -/
def featureFold (store : AnalyticsStore) (events : List PlayEventRow) :
    FeatureAcc :=
  events.foldl (featureStep store)
    { weight := 0, energy := 0, danceability := 0, valence := 0, tempo := 0 }

/-- UTC calendar date of an epoch-millisecond instant, as a day number: the
bucket key `event.playedAt.toISOString().slice(0, 10)` of report.ts line 306
identifies exactly the UTC day. -/
def dailyKey (playedAt : Int) : Int :=
  Int.fdiv playedAt 86400000

/-- Daily bucket value `{plays, minutes}` (report.ts line 266). -/
structure DailyBucket where
  plays : Nat
  minutes : ℚ
deriving DecidableEq

/-- Per-event step of the daily accumulation (report.ts lines 306-310). -/
def dailyStep (store : AnalyticsStore) (m : List (Int × DailyBucket))
    (e : PlayEventRow) : List (Int × DailyBucket) :=
  match findTrack store e.trackId with
  | none => m
  | some t =>
    let daily := (alistGet m (dailyKey e.playedAt)).getD
      { plays := 0, minutes := 0 }
    alistSet m (dailyKey e.playedAt)
      { plays := daily.plays + 1, minutes := daily.minutes + minutesOf t }

/-- Daily accumulation over the scanned events (report.ts lines 306-310). -/
def dailyFold (store : AnalyticsStore) (events : List PlayEventRow) :
    List (Int × DailyBucket) :=
  events.foldl (dailyStep store) []

/-- The `uniqueTrackIds` set of the loop (report.ts line 288). -/
def uniqueTrackIdsFold (store : AnalyticsStore)
    (events : List PlayEventRow) : List String :=
  events.foldl
    (fun s e =>
      match findTrack store e.trackId with
      | none => s
      | some t => setInsert s t.id)
    []

/-- The `uniqueAlbumIds` set of the loop (report.ts lines 289-291). -/
def uniqueAlbumIdsFold (store : AnalyticsStore)
    (events : List PlayEventRow) : List String :=
  events.foldl
    (fun s e =>
      match findTrack store e.trackId with
      | none => s
      | some t =>
        match t.albumId with
        | none => s
        | some aid => setInsert s aid)
    []

/-- The `uniqueArtistIds` set of the loop (report.ts lines 349-350). -/
def uniqueArtistIdsFold (store : AnalyticsStore)
    (events : List PlayEventRow) : List String :=
  events.foldl
    (fun s e =>
      match findTrack store e.trackId with
      | none => s
      | some t => t.artistIds.foldl setInsert s)
    []

/-- The `totalListeningMs` counter of the loop (report.ts line 286). -/
def totalListeningMsFold (store : AnalyticsStore)
    (events : List PlayEventRow) : ℚ :=
  events.foldl
    (fun total e =>
      match findTrack store e.trackId with
      | none => total
      | some t => total + t.durationMs)
    0

/-- The `songAgg` map of the loop (report.ts lines 312-327). -/
def songFold (store : AnalyticsStore) (events : List PlayEventRow) :
    List (String × AggregateAccumulator) :=
  events.foldl
    (fun m e =>
      match findTrack store e.trackId with
      | none => m
      | some t => accumulatePlay m t.id t.name t.imageUrl (minutesOf t) e.playedAt)
    []

/-- The `albumAgg` map of the loop (report.ts lines 329-347). -/
def albumFold (store : AnalyticsStore) (events : List PlayEventRow) :
    List (String × AggregateAccumulator) :=
  events.foldl
    (fun m e =>
      match findTrack store e.trackId with
      | none => m
      | some t =>
        match t.albumId with
        | none => m
        | some aid =>
          accumulatePlay m aid
            (((findAlbum store aid).map (fun a => a.name)).getD "Unknown Album")
            ((findAlbum store aid).bind (fun a => a.imageUrl))
            (minutesOf t) e.playedAt)
    []

/-- The `artistAgg` map of the loop (report.ts lines 352-368). -/
def artistFold (store : AnalyticsStore) (events : List PlayEventRow) :
    List (String × AggregateAccumulator) :=
  events.foldl
    (fun m e =>
      match findTrack store e.trackId with
      | none => m
      | some t =>
        t.artistIds.foldl
          (fun m aid =>
            accumulatePlay m aid
              (((findArtist store aid).map (fun a => a.name)).getD "Unknown Artist")
              ((findArtist store aid).bind (fun a => a.imageUrl))
              (minutesOf t) e.playedAt)
          m)
    []

/-- Genre tags charged for one artist (report.ts line 370): the artist's
genres, or the sentinel `"Unknown"` when the artist is missing or untagged. -/
def genresForArtist (store : AnalyticsStore) (aid : String) : List String :=
  match findArtist store aid with
  | some artist => if artist.genres.length ≠ 0 then artist.genres else ["Unknown"]
  | none => ["Unknown"]

/-- The `genreAgg` map of the loop (report.ts lines 370-388). -/
def genreFold (store : AnalyticsStore) (events : List PlayEventRow) :
    List (String × AggregateAccumulator) :=
  events.foldl
    (fun m e =>
      match findTrack store e.trackId with
      | none => m
      | some t =>
        t.artistIds.foldl
          (fun m aid =>
            (genresForArtist store aid).foldl
              (fun m genre => accumulatePlay m genre genre none (minutesOf t) e.playedAt)
              m)
          m)
    []

/-- Conversion of an accumulator map to unranked top entries (report.ts
lines 184-194), rounding minutes to one decimal. -/
def toTopEntries (m : List (String × AggregateAccumulator)) : List TopEntry :=
  m.map
    (fun e =>
      { rank := 0, id := e.2.id, name := e.2.name, imageUrl := e.2.imageUrl,
        playCount := e.2.playCount,
        totalMinutes := roundTo 1 e.2.totalMinutes,
        lastListened := e.2.lastListened })

/-- Point of the daily time series (report.ts lines 402-408); the date is
carried as a UTC day number (grouping and ascending order agree with the
`YYYY-MM-DD` strings of the source). -/
structure DailyPoint where
  date : Int
  plays : Nat
  minutes : ℚ
deriving DecidableEq

/-- Averaged audio features of the window (report.ts lines 413-419). -/
structure FeatureAverages where
  energy : ℚ
  danceability : ℚ
  valence : ℚ
  tempo : ℚ
deriving DecidableEq

/-- Result record of `aggregateForRange` (report.ts lines 148-164). -/
structure AggregationResult where
  totalListeningHours : ℚ
  totalUniqueSongs : Nat
  totalUniqueArtists : Nat
  totalUniqueAlbums : Nat
  listeningOverTime : List DailyPoint
  songs : List TopEntry
  artists : List TopEntry
  albums : List TopEntry
  genres : List TopEntry
  featureAverages : FeatureAverages
deriving DecidableEq

/-- Model of `aggregateForRange` (report.ts lines 196-421).  The source
accumulates all counters in one pass over the events; the accumulators are
independent of one another, so each is expressed as its own fold over the
same scanned event list. -/
def aggregateForRange (store : AnalyticsStore) (userId : String)
    (range : TimeRange) : AggregationResult :=
  let events := eventsInRange store userId range
  if events.isEmpty then
    { totalListeningHours := 0, totalUniqueSongs := 0, totalUniqueArtists := 0,
      totalUniqueAlbums := 0, listeningOverTime := [], songs := [],
      artists := [], albums := [], genres := [],
      featureAverages := { energy := 0, danceability := 0, valence := 0, tempo := 0 } }
  else
    let feat := featureFold store events
    { totalListeningHours := roundTo 2 (totalListeningMsFold store events / 1000 / 60 / 60),
      totalUniqueSongs := (uniqueTrackIdsFold store events).length,
      totalUniqueArtists := (uniqueArtistIdsFold store events).length,
      totalUniqueAlbums := (uniqueAlbumIdsFold store events).length,
      listeningOverTime :=
        (sortByFn (fun a b => a.1 ≤ b.1) (dailyFold store events)).map
          (fun e => { date := e.1, plays := e.2.plays,
                      minutes := roundTo 1 e.2.minutes }),
      songs := sortEntries (toTopEntries (songFold store events)) .plays,
      artists := sortEntries (toTopEntries (artistFold store events)) .plays,
      albums := sortEntries (toTopEntries (albumFold store events)) .plays,
      genres := sortEntries (toTopEntries (genreFold store events)) .plays,
      featureAverages :=
        { energy := if 0 < feat.weight then roundTo 3 (feat.energy / feat.weight) else 0,
          danceability := if 0 < feat.weight then roundTo 3 (feat.danceability / feat.weight) else 0,
          valence := if 0 < feat.weight then roundTo 3 (feat.valence / feat.weight) else 0,
          tempo := if 0 < feat.weight then roundTo 1 (feat.tempo / feat.weight) else 0 } }

/-! ## RecommendationEngine (first document of src/unnamed/part_011) -/

/-- Taste profile / audio-feature vector (part_011 lines 13-18). -/
structure TasteProfile where
  energy : ℚ
  danceability : ℚ
  valence : ℚ
  tempo : ℚ
deriving DecidableEq

/-- Artist reference carried on a provider track. -/
structure SpotifyArtistRef where
  id : String
  name : String
deriving DecidableEq

/-- Album reference carried on a provider track. -/
structure SpotifyAlbumRef where
  id : String
  name : String
deriving DecidableEq

/-- Provider track, restricted to the fields the verified functions read. -/
structure SpotifyTrack where
  id : String
  name : String
  artists : List SpotifyArtistRef
  album : SpotifyAlbumRef
deriving DecidableEq

/-- Scored candidate (part_011 lines 49-52). -/
structure CandidateWithScore where
  track : SpotifyTrack
  score : ℚ
deriving DecidableEq

/-- Candidate record handed to the ranking function (part_011 lines 96-100). -/
structure RecCandidate where
  track : SpotifyTrack
  features : Option TasteProfile
  candidateGenres : List String
deriving DecidableEq

/-- Feature distance (part_011 lines 85-93). -/
def distance (a b : TasteProfile) : ℚ :=
  |a.energy - b.energy| + |a.danceability - b.danceability| +
    |a.valence - b.valence| + |a.tempo - b.tempo| / 220

/-- Neutral default feature vector for candidates without provider audio
features (part_011 lines 107-112). -/
def neutralFeatureVector : TasteProfile :=
  { energy := 0.5, danceability := 0.5, valence := 0.5, tempo := 120 }

/-- Unrounded score of one candidate: similarity plus novelty boost
(part_011 lines 106-122 before `toFixed`). -/
def scoreRawOf (profile : TasteProfile) (knownArtistIds knownGenres : List String)
    (candidate : RecCandidate) : ℚ :=
  let featureVector := candidate.features.getD neutralFeatureVector
  let similarity := 1 - distance profile featureVector / 4
  let hasNewArtist := candidate.track.artists.all (fun artist => artist.id ∉ knownArtistIds)
  let hasNewGenre := candidate.candidateGenres.any (fun genre => genre ∉ knownGenres)
  let noveltyBoost := (if hasNewArtist then (0.07 : ℚ) else 0) +
    (if hasNewGenre then (0.04 : ℚ) else 0)
  similarity + noveltyBoost

/-- Scored candidate as built by the `map` of the ranking function
(part_011 lines 106-123), with the 4-decimal rounding of `toFixed(4)`. -/
def scoreCandidate (profile : TasteProfile) (knownArtistIds knownGenres : List String)
    (candidate : RecCandidate) : CandidateWithScore :=
  { track := candidate.track,
    score := roundTo 4 (scoreRawOf profile knownArtistIds knownGenres candidate) }

/-- Model of `rankRecommendationCandidates` (part_011 lines 95-126): score
every candidate, then sort descending by score. -/
def rankRecommendationCandidates (candidates : List RecCandidate)
    (profile : TasteProfile) (knownArtistIds knownGenres : List String) :
    List CandidateWithScore :=
  sortByFn (fun a b => b.score ≤ a.score)
    (candidates.map (scoreCandidate profile knownArtistIds knownGenres))

/-- Seed combination for one recommendation request (part_011 lines 65-70). -/
structure SeedRequest where
  seedTracks : List String
  seedArtists : List String
  seedGenres : List String
  label : String
deriving DecidableEq

/-- JavaScript `String.prototype.trim`: strip whitespace from both ends. -/
def jsTrim (s : String) : String :=
  ⟨((s.data.dropWhile Char.isWhitespace).reverse.dropWhile Char.isWhitespace).reverse⟩

/-- JavaScript `String.prototype.toLowerCase` on the ASCII range in which all
verified inputs lie. -/
def jsToLower (s : String) : String :=
  ⟨s.data.map Char.toLower⟩

/-- Model of `dedupeStrings` (part_011 lines 160-175): trim, drop empties and
repeats, keep first-occurrence order. -/
def dedupeStrings (values : List String) : List String :=
  values.foldl
    (fun acc value =>
      let normalized := jsTrim value
      if normalized = "" ∨ normalized ∈ acc then acc else acc ++ [normalized])
    []

/-- Characters kept by the genre sanitizer (part_011 line 182); the Unicode
letter/number classes of the source regex are modelled on the ASCII range in
which all verified inputs lie. -/
def keepGenreChar (c : Char) : Bool :=
  c.isAlphanum || c = ' ' || c = '-'

/-- Model of `sanitizeGenreToken` (part_011 lines 177-185): trim, lower-case,
expand `&`, blank out other punctuation, collapse whitespace. -/
def sanitizeGenreToken (input : String) : String :=
  let lowered := jsToLower (jsTrim input)
  let anded := lowered.replace "&" " and "
  let cleaned := String.map (fun c => if keepGenreChar c then c else ' ') anded
  String.intercalate " " ((cleaned.split (fun c => c = ' ')).filter (fun s => s ≠ ""))

/-- Alias table of `toGenreSeedCandidates` (part_011 lines 194-201), with the
`?? ""` default for absent keys. -/
def genreAlias (normalized : String) : String :=
  if normalized = "hip hop" then "hip-hop"
  else if normalized = "hip-hop" then "hip-hop"
  else if normalized = "r and b" then "r-n-b"
  else if normalized = "rnb" then "r-n-b"
  else if normalized = "drum and bass" then "drum-and-bass"
  else if normalized = "k pop" then "k-pop"
  else ""

/-- Model of `toGenreSeedCandidates` (part_011 lines 187-204). -/
def toGenreSeedCandidates (input : String) : List String :=
  let normalized := sanitizeGenreToken input
  if normalized = "" then []
  else
    let collapsed := normalized.replace " " "-"
    dedupeStrings [normalized, collapsed, genreAlias normalized]

/-- Model of `clampSeedsToSpotifyLimit` (part_011 lines 206-218) with
`MAX_SEEDS_PER_REQUEST = 5`. -/
def clampSeedsToSpotifyLimit (seedRequest : SeedRequest) : SeedRequest :=
  let tracks := seedRequest.seedTracks.take 2
  let artists := seedRequest.seedArtists.take 2
  let remaining := 5 - tracks.length - artists.length
  let genres := if 0 < remaining then seedRequest.seedGenres.take remaining else []
  { seedTracks := tracks, seedArtists := artists, seedGenres := genres,
    label := seedRequest.label }

/-- Model of `hasAtLeastOneSeed` (part_011 lines 220-222). -/
def hasAtLeastOneSeed (seedRequest : SeedRequest) : Bool :=
  0 < seedRequest.seedTracks.length + seedRequest.seedArtists.length +
    seedRequest.seedGenres.length

/-- Model of `buildSeedStrategyKey` (part_011 lines 224-230). -/
def buildSeedStrategyKey (seedRequest : SeedRequest) : String :=
  String.intercalate "|"
    [String.intercalate "," seedRequest.seedTracks,
     String.intercalate "," seedRequest.seedArtists,
     String.intercalate "," seedRequest.seedGenres]

/-- Model of `filterSupportedGenres` (part_011 lines 267-283); the `seen` set
of the source always holds exactly the accepted values. -/
def filterSupportedGenres (candidateGenres : List String)
    (availableGenres : List String) : List String :=
  candidateGenres.foldl
    (fun acc genre =>
      match (toGenreSeedCandidates genre).find?
          (fun candidate => candidate ∈ availableGenres) with
      | none => acc
      | some m => if m ∈ acc then acc else acc ++ [m])
    []

/-- Failure of one gateway call as observed by the recommendation engine:
a `SpotifyApiError` with its status, or any other thrown error. -/
inductive RequestFailure where
  | api (status : Nat)
  | other
deriving DecidableEq

/-- Errors that `fetchRecommendationCandidates` can propagate. -/
inductive RecError where
  | apiFailure (status : Nat)
  | otherFailure
  | message (text : String)
deriving DecidableEq

/-- Decidable equality on `Except`, so concrete gateway outcomes can be
compared by `decide`. -/
instance {ε α : Type} [DecidableEq ε] [DecidableEq α] :
    DecidableEq (Except ε α) := fun x y =>
  match x, y with
  | .ok a, .ok b =>
    if h : a = b then isTrue (by rw [h])
    else isFalse (fun hh => h (by cases hh; rfl))
  | .error e, .error f =>
    if h : e = f then isTrue (by rw [h])
    else isFalse (fun hh => h (by cases hh; rfl))
  | .ok _, .error _ => isFalse (fun hh => Except.noConfusion hh)
  | .error _, .ok _ => isFalse (fun hh => Except.noConfusion hh)

/-- Strategy loop of `fetchRecommendationCandidates` (part_011 lines
406-430 plus the final throws on lines 432-436).  `recOracle` gives the
outcome of the `/recommendations` call for a seed combination; the boolean
carries whether a 4xx client error has been swallowed so far (the source
keeps the last such error object, but only its presence reaches the result). -/
def strategyLoop (recOracle : SeedRequest → Except RequestFailure (List SpotifyTrack))
    (strategies : List SeedRequest) (lastClientError : Bool) :
    Except RecError (List SpotifyTrack) :=
  match strategies with
  | [] =>
    if lastClientError then
      .error (.message "Spotify could not generate recommendations from available seed combinations.")
    else
      .error (.message "Spotify returned no recommendation candidates for your profile.")
  | strategy :: rest =>
    match recOracle strategy with
    | .ok tracks =>
      if 0 < tracks.length then .ok tracks
      else strategyLoop recOracle rest lastClientError
    | .error (.api status) =>
      if 400 ≤ status ∧ status < 500 then strategyLoop recOracle rest true
      else .error (.apiFailure status)
    | .error .other => .error .otherFailure

/-- Priority list of seed combinations (part_011 lines 358-400): the four
labelled strategies, clamped, dropped when empty, de-duplicated by key; the
`strategyKeys` set of the source always holds exactly the keys of the
accepted strategies. -/
def buildStrategies (seedTrackIds seedArtistIds supportedSeedGenres : List String) :
    List SeedRequest :=
  let requested : List SeedRequest :=
    [{ seedTracks := seedTrackIds, seedArtists := seedArtistIds,
       seedGenres := supportedSeedGenres, label := "tracks+artists+genres" },
     { seedTracks := seedTrackIds, seedArtists := seedArtistIds,
       seedGenres := [], label := "tracks+artists" },
     { seedTracks := seedTrackIds, seedArtists := [],
       seedGenres := [], label := "tracks-only" },
     { seedTracks := [], seedArtists := seedArtistIds,
       seedGenres := [], label := "artists-only" }]
  requested.foldl
    (fun acc strategy =>
      let constrained := clampSeedsToSpotifyLimit strategy
      if !hasAtLeastOneSeed constrained then acc
      else if buildSeedStrategyKey constrained ∈ acc.map buildSeedStrategyKey then acc
      else acc ++ [constrained])
    []

/-- Model of `fetchRecommendationCandidates` (part_011 lines 326-437).
`genreSeedsResult` is the outcome of the `/recommendations/available-genre-seeds`
call (the source lower-cases the returned names), `recOracle` the outcome of
the `/recommendations` call per seed combination; the request parameters also
carry the taste profile, which does not influence the verified control flow. -/
def fetchRecommendationCandidates
    (genreSeedsResult : Except RequestFailure (List String))
    (recOracle : SeedRequest → Except RequestFailure (List SpotifyTrack))
    (seedTracks seedArtists seedGenres : List String) :
    Except RecError (List SpotifyTrack) :=
  let seedTrackIds := (dedupeStrings seedTracks).take 5
  let seedArtistIds := (dedupeStrings seedArtists).take 5
  if seedTrackIds.length + seedArtistIds.length = 0 ∧ seedGenres.length = 0 then
    .error (.message "Not enough listening data to generate recommendations yet.")
  else
    match
      (match genreSeedsResult with
       | .ok genres => Except.ok (genres.map jsToLower)
       | .error (.api status) =>
         if status = 401 ∨ 500 ≤ status then Except.error (RecError.apiFailure status)
         else Except.ok []
       | .error .other => Except.error RecError.otherFailure) with
    | .error e => .error e
    | .ok availableGenres =>
      let supportedSeedGenres := (filterSupportedGenres seedGenres availableGenres).take 5
      let strategies := buildStrategies seedTrackIds seedArtistIds supportedSeedGenres
      if strategies.length = 0 then
        .error (.message "Not enough listening data to generate recommendations yet.")
      else
        strategyLoop recOracle strategies false

/-- Outcome of the cache/cooldown gate of `generateDailyRecommendations`. -/
inductive RecRunOutcome where
  | servedFromCache
  | throttled
  | computedCreate
  | computedOverwrite
deriving DecidableEq

/-- The `REGENERATE_COOLDOWN_MS` constant (part_011 line 54). -/
def regenerateCooldownMs : Int := 60 * 60 * 1000

/-- Cache/cooldown gate of `generateDailyRecommendations` (part_011 lines
527-554 and the persistence branch on lines 670-695): given the `createdAt`
of an existing row for (user, today in UTC), the force flag and the current
time, decide whether the call serves the cached row (`fromCache = true`),
fails with the regenerate-limit error, or recomputes — overwriting the
existing row in place when there is one. -/
def dailyRecGate (existingCreatedAt : Option Int) (forceRegenerate : Bool)
    (now : Int) : RecRunOutcome :=
  match existingCreatedAt with
  | some createdAt =>
    if !forceRegenerate then .servedFromCache
    else if now - createdAt < regenerateCooldownMs then .throttled
    else .computedOverwrite
  | none => .computedCreate

/-! ## Statement-side definitions: order relations, per-event helpers,
spec-comparison definitions and concrete instances -/

/-- Order asserted for a list sorted under a given key: descending play
count, descending minutes, or most-recent-first with entries lacking a
`lastListened` sorting last. -/
def keyOrder : SortKey → TopEntry → TopEntry → Prop
  | .plays => fun a b => b.playCount ≤ a.playCount
  | .minutes => fun a b => b.totalMinutes ≤ a.totalMinutes
  | .recent => fun a b =>
    match a.lastListened, b.lastListened with
    | none, none => True
    | none, some _ => False
    | some _, none => True
    | some x, some y => y ≤ x

/-- Minutes one event contributes (zero for an event whose track row is
absent, in which case the aggregation loop skips the event anyway). -/
def eventMinutes (store : AnalyticsStore) (e : PlayEventRow) : ℚ :=
  match findTrack store e.trackId with
  | none => 0
  | some t => minutesOf t

/-- Whether a track row carries all four audio-feature values. -/
def trackComplete (t : StoredTrack) : Bool :=
  t.energy.isSome && t.danceability.isSome && t.valence.isSome && t.tempo.isSome

/-- Whether an event's track is present and feature-complete. -/
def completeEvent (store : AnalyticsStore) (e : PlayEventRow) : Bool :=
  match findTrack store e.trackId with
  | none => false
  | some t => trackComplete t

/-- Energy an event's track contributes to the feature sums. -/
def eventEnergy (store : AnalyticsStore) (e : PlayEventRow) : ℚ :=
  match findTrack store e.trackId with
  | none => 0
  | some t => t.energy.getD 0

/-- Danceability an event's track contributes to the feature sums. -/
def eventDanceability (store : AnalyticsStore) (e : PlayEventRow) : ℚ :=
  match findTrack store e.trackId with
  | none => 0
  | some t => t.danceability.getD 0

/-- Valence an event's track contributes to the feature sums. -/
def eventValence (store : AnalyticsStore) (e : PlayEventRow) : ℚ :=
  match findTrack store e.trackId with
  | none => 0
  | some t => t.valence.getD 0

/-- Tempo an event's track contributes to the feature sums. -/
def eventTempo (store : AnalyticsStore) (e : PlayEventRow) : ℚ :=
  match findTrack store e.trackId with
  | none => 0
  | some t => t.tempo.getD 0

/-- Rendering of the spec sentence "the mean of all tracks in the aggregation
window that have a complete feature tuple" for the energy component: each
distinct track of the window counts once.  Stated only to be compared with
the implementation's `featureAverages`. -/
def specTasteMeanEnergy (store : AnalyticsStore) (userId : String)
    (range : TimeRange) : ℚ :=
  let tids := ((eventsInRange store userId range).map (fun e => e.trackId)).dedup
  let completeTracks :=
    (tids.filterMap (fun tid => findTrack store tid)).filter
      (fun t => trackComplete t)
  if completeTracks.length = 0 then 0
  else ((completeTracks.map (fun t => t.energy.getD 0)).sum) / completeTracks.length

/-- Local calendar date of an epoch instant, as a day number, for an
environment whose UTC offset is `utcOffsetMs`; renders the spec phrase
"the event's local calendar date" for comparison with the implementation's
bucket key. -/
def localDailyKey (utcOffsetMs : Int) (playedAt : Int) : Int :=
  Int.fdiv (playedAt + utcOffsetMs) 86400000

/-- A strategy attempt the loop swallows before moving on: an empty success
or a 4xx client error. -/
def swallowedBy (recOracle : SeedRequest → Except RequestFailure (List SpotifyTrack))
    (s : SeedRequest) : Prop :=
  (∃ ts, recOracle s = .ok ts ∧ ts.length = 0) ∨
    (∃ st, recOracle s = .error (.api st) ∧ 400 ≤ st ∧ st < 500)

/-- Track returned by the recommendation oracle in the C1 scenario. -/
def c1Track : SpotifyTrack :=
  { id := "trk", name := "T",
    artists := [{ id := "na", name := "N" }],
    album := { id := "al", name := "AL" } }

/-- Recommendation oracle of the C1 scenario: the first strategy
(tracks+artists+genres) fails with HTTP 401, the tracks-only strategy
succeeds with one candidate. -/
def c1Oracle : SeedRequest → Except RequestFailure (List SpotifyTrack) :=
  fun s =>
    if s.label = "tracks+artists+genres" then .error (.api 401)
    else if s.label = "tracks-only" then .ok [c1Track]
    else .ok []

/-- Oracle for the C1 amended-claim witness: the first strategy fails with a
plain 404, the rest succeed with one candidate. -/
def c1WitnessOracle : SeedRequest → Except RequestFailure (List SpotifyTrack) :=
  fun s =>
    if s.label = "first" then .error (.api 404) else .ok [c1Track]

/-- Feature-complete track (energy 4/5) of the C7 scenario. -/
def c7Track1 : StoredTrack :=
  { id := "t1", name := "T1", durationMs := 60000, albumId := none,
    artistIds := [], imageUrl := none, energy := some (4/5),
    danceability := some (4/5), valence := some (4/5), tempo := some 120 }

/-- Feature-complete track (energy 1/5) of the C7 scenario. -/
def c7Track3 : StoredTrack :=
  { id := "t3", name := "T3", durationMs := 60000, albumId := none,
    artistIds := [], imageUrl := none, energy := some (1/5),
    danceability := some (1/5), valence := some (1/5), tempo := some 100 }

/-- Store of the C7 scenario: track t1 is played twice, track t3 once. -/
def c7Store : AnalyticsStore :=
  { playEvents := [{ userId := "u", trackId := "t1", playedAt := 1000 },
                   { userId := "u", trackId := "t1", playedAt := 2000 },
                   { userId := "u", trackId := "t3", playedAt := 3000 }],
    tracks := [c7Track1, c7Track3], artists := [], albums := [] }

/-- Window of the C7 scenario. -/
def c7Range : TimeRange := { fromMs := 0, toMs := 10000 }

/-- Track of the C9 scenario. -/
def c9Track : StoredTrack :=
  { id := "t1", name := "T1", durationMs := 60000, albumId := none,
    artistIds := [], imageUrl := none, energy := none,
    danceability := none, valence := none, tempo := none }

/-- Store of the C9 scenario: one play two hours after the UTC midnight of
day 0, so its local calendar date at UTC-5 is day -1. -/
def c9Store : AnalyticsStore :=
  { playEvents := [{ userId := "u", trackId := "t1", playedAt := 7200000 }],
    tracks := [c9Track], artists := [], albums := [] }

/-- Window of the C9 scenario. -/
def c9Range : TimeRange := { fromMs := 0, toMs := 10000000 }

/-- Store of the C4 witness. -/
def c4Store : AnalyticsStore :=
  { playEvents := [{ userId := "u", trackId := "t1", playedAt := 1000 },
                   { userId := "u", trackId := "t1", playedAt := 2000 },
                   { userId := "u", trackId := "t3", playedAt := 3000 },
                   { userId := "v", trackId := "t3", playedAt := 1500 }],
    tracks := [c7Track1, c7Track3], artists := [], albums := [] }

/-- Window of the C4 witness. -/
def c4Range : TimeRange := { fromMs := 0, toMs := 2500 }

/-- Date-parse oracle of the C3 witness. -/
def c3Parse : String → Option Int :=
  fun s => if s = "d1" then some 5 else none

/-- Initial store of the C3 witness. -/
def c3Store : ImportStore := { trackIds := [], plays := [] }

/-- Payload of the C3 witness: a repeated play and an unparseable one. -/
def c3Payload : ImportPayload :=
  { trackIds := ["t1"],
    plays := [{ trackId := "t1", playedAt := "d1" },
              { trackId := "t1", playedAt := "d1" },
              { trackId := "t2", playedAt := "bad" }] }

/-- Date-parse oracle of the C10 scenario. -/
def c10Parse : String → Option Int :=
  fun s => if s = "d1" then some 1000 else none

/-- Store of the C10 scenario: the submitted play is already persisted. -/
def c10Store : ImportStore :=
  { trackIds := ["t1"],
    plays := [{ userId := "u", trackId := "t1", playedAt := 1000,
                importSource := "json_restore" }] }

/-- Payload of the C10 scenario. -/
def c10Payload : ImportPayload :=
  { trackIds := ["t1"], plays := [{ trackId := "t1", playedAt := "d1" }] }

/-- Feature-incomplete track of the C7 witness (energy missing). -/
def c7TrackIncomplete : StoredTrack :=
  { id := "t2", name := "T2", durationMs := 60000, albumId := none,
    artistIds := [], imageUrl := none, energy := none,
    danceability := some (1/2), valence := some (1/2), tempo := some 100 }

/-- Store of the C7 witness: one play of a complete track and one play of an
incomplete track. -/
def c7WitnessStore : AnalyticsStore :=
  { playEvents := [{ userId := "u", trackId := "t1", playedAt := 1000 },
                   { userId := "u", trackId := "t2", playedAt := 2000 }],
    tracks := [c7Track1, c7TrackIncomplete], artists := [], albums := [] }

/-! ## Lemmas about the generic helpers -/

theorem perm_insertBy (le : α → α → Bool) (x : α) :
    ∀ l : List α, (insertBy le x l).Perm (x :: l) := by
  intro l
  induction l with
  | nil => simp [insertBy]
  | cons y ys ih =>
    by_cases hxy : le x y
    · simp [insertBy, hxy]
    · simp only [insertBy, hxy, if_false, Bool.false_eq_true]
      exact (ih.cons y).trans (List.Perm.swap x y ys)

theorem perm_sortByFn (le : α → α → Bool) :
    ∀ l : List α, (sortByFn le l).Perm l := by
  intro l
  induction l with
  | nil => simp [sortByFn]
  | cons x xs ih =>
    exact (perm_insertBy le x (sortByFn le xs)).trans (ih.cons x)

theorem length_sortByFn (le : α → α → Bool) (l : List α) :
    (sortByFn le l).length = l.length :=
  (perm_sortByFn le l).length_eq

theorem mem_sortByFn (le : α → α → Bool) (l : List α) (a : α) :
    a ∈ sortByFn le l ↔ a ∈ l :=
  (perm_sortByFn le l).mem_iff

theorem pairwise_insertBy {R : α → α → Prop} {le : α → α → Bool}
    (hle : ∀ a b, le a b = true → R a b)
    (hgt : ∀ a b, le a b = false → R b a)
    (htrans : ∀ a b c, R a b → R b c → R a c) (x : α) :
    ∀ l : List α, List.Pairwise R l → List.Pairwise R (insertBy le x l) := by
  intro l
  induction l with
  | nil => intro _; simp [insertBy]
  | cons y ys ih =>
    intro h
    rcases List.pairwise_cons.mp h with ⟨hy, hys⟩
    by_cases hxy : le x y
    · simp only [insertBy, hxy, if_true]
      refine List.pairwise_cons.mpr ⟨?_, h⟩
      intro b hb
      rcases List.mem_cons.mp hb with rfl | hb
      · exact hle x b hxy
      · exact htrans x y b (hle x y hxy) (hy b hb)
    · simp only [insertBy, hxy, Bool.false_eq_true, if_false]
      refine List.pairwise_cons.mpr ⟨?_, ih hys⟩
      intro b hb
      have hb2 := (perm_insertBy le x ys).mem_iff.mp hb
      rcases List.mem_cons.mp hb2 with hbx | hb2
      · exact hbx.symm ▸ hgt x y (Bool.eq_false_iff.mpr hxy)
      · exact hy b hb2

theorem pairwise_sortByFn {R : α → α → Prop} {le : α → α → Bool}
    (hle : ∀ a b, le a b = true → R a b)
    (hgt : ∀ a b, le a b = false → R b a)
    (htrans : ∀ a b c, R a b → R b c → R a c) :
    ∀ l : List α, List.Pairwise R (sortByFn le l) := by
  intro l
  induction l with
  | nil => simp [sortByFn]
  | cons x xs ih => exact pairwise_insertBy hle hgt htrans x _ ih

theorem mem_setInsert (s : List String) (x a : String) :
    a ∈ setInsert s x ↔ a ∈ s ∨ a = x := by
  unfold setInsert
  split
  · rename_i hx
    constructor
    · exact fun h => Or.inl h
    · rintro (h | rfl)
      · exact h
      · exact hx
  · simp

theorem nodup_setInsert (s : List String) (x : String) (h : s.Nodup) :
    (setInsert s x).Nodup := by
  unfold setInsert
  split
  · exact h
  · rename_i hx
    simpa [List.nodup_append] using ⟨h, hx⟩

theorem mem_foldl_setInsert :
    ∀ (l : List String) (s : List String) (a : String),
      a ∈ l.foldl setInsert s ↔ a ∈ s ∨ a ∈ l := by
  intro l
  induction l with
  | nil => simp
  | cons x xs ih =>
    intro s a
    simp only [List.foldl_cons, ih, mem_setInsert, List.mem_cons]
    tauto

theorem nodup_foldl_setInsert :
    ∀ (l : List String) (s : List String), s.Nodup → (l.foldl setInsert s).Nodup := by
  intro l
  induction l with
  | nil => exact fun s h => h
  | cons x xs ih => exact fun s h => ih _ (nodup_setInsert s x h)

theorem toFinset_foldl_setInsert (l s : List String) :
    (l.foldl setInsert s).toFinset = s.toFinset ∪ l.toFinset := by
  ext a
  simp [mem_foldl_setInsert]

theorem length_foldl_setInsert_nil (l : List String) :
    (l.foldl setInsert []).length = l.dedup.length := by
  have hnodup := nodup_foldl_setInsert l [] List.nodup_nil
  have hfin : (l.foldl setInsert []).toFinset = l.toFinset := by
    rw [toFinset_foldl_setInsert]; simp
  calc (l.foldl setInsert []).length
      = (l.foldl setInsert []).toFinset.card := (List.toFinset_card_of_nodup hnodup).symm
    _ = l.toFinset.card := by rw [hfin]
    _ = l.dedup.length := List.card_toFinset l

/-! ## Lemmas about `sortEntries` -/

theorem keyOrder_of_le (key : SortKey) :
    ∀ a b : TopEntry, topEntryLE key a b = true → keyOrder key a b := by
  intro a b
  cases key with
  | plays => simp [topEntryLE, keyOrder]
  | minutes => simp [topEntryLE, keyOrder]
  | recent =>
    cases ha : a.lastListened <;> cases hb : b.lastListened <;>
      simp [topEntryLE, keyOrder, ha, hb]

theorem keyOrder_of_not_le (key : SortKey) :
    ∀ a b : TopEntry, topEntryLE key a b = false → keyOrder key b a := by
  intro a b
  cases key with
  | plays =>
    simp only [topEntryLE, keyOrder, decide_eq_false_iff_not]
    omega
  | minutes =>
    simp only [topEntryLE, keyOrder, decide_eq_false_iff_not]
    exact fun h => le_of_not_le h
  | recent =>
    cases ha : a.lastListened <;> cases hb : b.lastListened <;>
      simp only [topEntryLE, keyOrder, ha, hb, decide_eq_false_iff_not] <;>
      intro h <;>
      first
        | trivial
        | exact absurd h (by decide)
        | exact le_of_not_le h

theorem keyOrder_trans (key : SortKey) :
    ∀ a b c : TopEntry, keyOrder key a b → keyOrder key b c → keyOrder key a c := by
  intro a b c
  cases key with
  | plays =>
    simp only [keyOrder]
    omega
  | minutes =>
    simp only [keyOrder]
    exact fun h1 h2 => le_trans h2 h1
  | recent =>
    cases ha : a.lastListened <;> cases hb : b.lastListened <;>
        cases hc : c.lastListened <;>
      simp only [keyOrder, ha, hb, hc] <;>
      first
        | exact fun _ _ => trivial
        | exact fun h _ => h.elim
        | exact fun _ h => h.elim
        | exact fun h1 h2 => le_trans h2 h1

theorem sortEntries_length (input : List TopEntry) (key : SortKey) :
    (sortEntries input key).length = input.length := by
  unfold sortEntries
  simp [length_sortByFn]

theorem sortEntries_ranks (input : List TopEntry) (key : SortKey) :
    (sortEntries input key).map (fun e => e.rank) =
      (List.range input.length).map (fun i => i + 1) := by
  unfold sortEntries
  rw [List.map_map]
  have h1 : ((fun e : TopEntry => e.rank) ∘
      fun p : ℕ × TopEntry => { p.2 with rank := p.1 + 1 }) =
      (fun i => i + 1) ∘ Prod.fst := rfl
  rw [h1, ← List.map_map, List.enum_map_fst, length_sortByFn]

theorem pairwise_enum_snd {R : α → α → Prop} (l : List α)
    (h : List.Pairwise R l) :
    List.Pairwise (fun p q : ℕ × α => R p.2 q.2) l.enum := by
  have h2 : List.Pairwise R (l.enum.map Prod.snd) := by
    rw [List.enum_map_snd]; exact h
  exact List.pairwise_map.mp h2

theorem sortEntries_sorted (input : List TopEntry) (key : SortKey) :
    List.Pairwise (keyOrder key) (sortEntries input key) := by
  unfold sortEntries
  have hs : List.Pairwise (keyOrder key) (sortByFn (topEntryLE key) input) :=
    pairwise_sortByFn (keyOrder_of_le key) (keyOrder_of_not_le key)
      (keyOrder_trans key) input
  have he := pairwise_enum_snd _ hs
  refine List.Pairwise.map _ ?_ he
  intro p q hpq
  cases key with
  | plays => simpa [keyOrder] using hpq
  | minutes => simpa [keyOrder] using hpq
  | recent => simpa [keyOrder] using hpq

/-! ## Projection lemmas for `aggregateForRange` -/

theorem aggregateForRange_totalUniqueSongs (store : AnalyticsStore)
    (userId : String) (range : TimeRange) :
    (aggregateForRange store userId range).totalUniqueSongs =
      if (eventsInRange store userId range).isEmpty then 0
      else (uniqueTrackIdsFold store (eventsInRange store userId range)).length := by
  by_cases hE : (eventsInRange store userId range).isEmpty <;>
    simp [aggregateForRange, hE]

theorem aggregateForRange_songs (store : AnalyticsStore) (userId : String)
    (range : TimeRange) :
    (aggregateForRange store userId range).songs =
      if (eventsInRange store userId range).isEmpty then []
      else sortEntries
        (toTopEntries (songFold store (eventsInRange store userId range))) .plays := by
  by_cases hE : (eventsInRange store userId range).isEmpty <;>
    simp [aggregateForRange, hE]

theorem aggregateForRange_artists (store : AnalyticsStore) (userId : String)
    (range : TimeRange) :
    (aggregateForRange store userId range).artists =
      if (eventsInRange store userId range).isEmpty then []
      else sortEntries
        (toTopEntries (artistFold store (eventsInRange store userId range))) .plays := by
  by_cases hE : (eventsInRange store userId range).isEmpty <;>
    simp [aggregateForRange, hE]

theorem aggregateForRange_albums (store : AnalyticsStore) (userId : String)
    (range : TimeRange) :
    (aggregateForRange store userId range).albums =
      if (eventsInRange store userId range).isEmpty then []
      else sortEntries
        (toTopEntries (albumFold store (eventsInRange store userId range))) .plays := by
  by_cases hE : (eventsInRange store userId range).isEmpty <;>
    simp [aggregateForRange, hE]

theorem aggregateForRange_genres (store : AnalyticsStore) (userId : String)
    (range : TimeRange) :
    (aggregateForRange store userId range).genres =
      if (eventsInRange store userId range).isEmpty then []
      else sortEntries
        (toTopEntries (genreFold store (eventsInRange store userId range))) .plays := by
  by_cases hE : (eventsInRange store userId range).isEmpty <;>
    simp [aggregateForRange, hE]

theorem aggregateForRange_listeningOverTime (store : AnalyticsStore)
    (userId : String) (range : TimeRange) :
    (aggregateForRange store userId range).listeningOverTime =
      if (eventsInRange store userId range).isEmpty then []
      else (sortByFn (fun a b => a.1 ≤ b.1)
          (dailyFold store (eventsInRange store userId range))).map
        (fun e => { date := e.1, plays := e.2.plays,
                    minutes := roundTo 1 e.2.minutes }) := by
  by_cases hE : (eventsInRange store userId range).isEmpty <;>
    simp [aggregateForRange, hE]

theorem aggregateForRange_featureAverages (store : AnalyticsStore)
    (userId : String) (range : TimeRange) :
    (aggregateForRange store userId range).featureAverages =
      if (eventsInRange store userId range).isEmpty then
        { energy := 0, danceability := 0, valence := 0, tempo := 0 }
      else
        { energy := if 0 < (featureFold store (eventsInRange store userId range)).weight then
            roundTo 3 ((featureFold store (eventsInRange store userId range)).energy /
              (featureFold store (eventsInRange store userId range)).weight) else 0,
          danceability := if 0 < (featureFold store (eventsInRange store userId range)).weight then
            roundTo 3 ((featureFold store (eventsInRange store userId range)).danceability /
              (featureFold store (eventsInRange store userId range)).weight) else 0,
          valence := if 0 < (featureFold store (eventsInRange store userId range)).weight then
            roundTo 3 ((featureFold store (eventsInRange store userId range)).valence /
              (featureFold store (eventsInRange store userId range)).weight) else 0,
          tempo := if 0 < (featureFold store (eventsInRange store userId range)).weight then
            roundTo 1 ((featureFold store (eventsInRange store userId range)).tempo /
              (featureFold store (eventsInRange store userId range)).weight) else 0 } := by
  by_cases hE : (eventsInRange store userId range).isEmpty <;>
    simp [aggregateForRange, hE]

/-! ## Lemmas about the aggregation folds -/

theorem uniqueTrackIdsFold_eq (store : AnalyticsStore) :
    ∀ (events : List PlayEventRow) (s : List String),
      (∀ e ∈ events, (findTrack store e.trackId).isSome) →
      events.foldl
        (fun s e =>
          match findTrack store e.trackId with
          | none => s
          | some t => setInsert s t.id) s =
      (events.map (fun e => e.trackId)).foldl setInsert s := by
  intro events
  induction events with
  | nil => intro s _; rfl
  | cons e rest ih =>
    intro s h
    have he := h e (List.mem_cons_self e rest)
    obtain ⟨t, ht⟩ := Option.isSome_iff_exists.mp he
    have ht2 : store.tracks.find? (fun tr => tr.id = e.trackId) = some t := ht
    have hid : t.id = e.trackId := by
      have h3 := List.find?_some ht2
      simpa using h3
    simp only [List.foldl_cons, List.map_cons, ht, hid]
    exact ih _ (fun x hx => h x (List.mem_cons_of_mem e hx))

theorem eventsInRange_perm (store : AnalyticsStore) (userId : String)
    (range : TimeRange) :
    (eventsInRange store userId range).Perm
      (store.playEvents.filter
        (fun e => e.userId = userId && range.fromMs ≤ e.playedAt &&
          e.playedAt ≤ range.toMs)) :=
  perm_sortByFn _ _

theorem mem_eventsInRange (store : AnalyticsStore) (userId : String)
    (range : TimeRange) (e : PlayEventRow)
    (h : e ∈ eventsInRange store userId range) : e ∈ store.playEvents := by
  have h2 := (eventsInRange_perm store userId range).mem_iff.mp h
  exact (List.mem_filter.mp h2).1

theorem ranks_of_sortEntries_self (input : List TopEntry) (key : SortKey) :
    (sortEntries input key).map (fun e => e.rank) =
      (List.range (sortEntries input key).length).map (fun i => i + 1) := by
  rw [sortEntries_length]
  exact sortEntries_ranks input key

/-- C4: for every user and range, `totalUniqueSongs` equals the number of
distinct track ids among the user's play events inside the window, and every
top list produced by `sortEntries` — in particular the four lists of the
aggregation result — carries contiguous 1-based ranks in the order of the
chosen sort key, entries without a `lastListened` sorting last under the
`recent` key (the `keyOrder` relation). -/
theorem c4_totalUniqueSongs_and_ranks (store : AnalyticsStore) (userId : String)
    (range : TimeRange)
    (htracks : ∀ e ∈ store.playEvents, (findTrack store e.trackId).isSome) :
    (aggregateForRange store userId range).totalUniqueSongs =
      ((store.playEvents.filter
        (fun e => e.userId = userId && range.fromMs ≤ e.playedAt &&
          e.playedAt ≤ range.toMs)).map (fun e => e.trackId)).dedup.length
    ∧ (∀ (input : List TopEntry) (key : SortKey),
        (sortEntries input key).map (fun e => e.rank) =
          (List.range input.length).map (fun i => i + 1)
        ∧ List.Pairwise (keyOrder key) (sortEntries input key))
    ∧ (∀ l ∈ [(aggregateForRange store userId range).songs,
              (aggregateForRange store userId range).artists,
              (aggregateForRange store userId range).albums,
              (aggregateForRange store userId range).genres],
        l.map (fun e => e.rank) = (List.range l.length).map (fun i => i + 1)
        ∧ List.Pairwise (keyOrder SortKey.plays) l) := by
  refine ⟨?_, ?_, ?_⟩
  · rw [aggregateForRange_totalUniqueSongs]
    by_cases hE : (eventsInRange store userId range).isEmpty
    · rw [if_pos hE]
      have h0 : eventsInRange store userId range = [] := List.isEmpty_iff.mp hE
      have h1 := (eventsInRange_perm store userId range).symm
      rw [h0] at h1
      have h2 := h1.eq_nil
      rw [h2]
      rfl
    · rw [if_neg hE]
      have hmem : ∀ e ∈ eventsInRange store userId range,
          (findTrack store e.trackId).isSome :=
        fun e he => htracks e (mem_eventsInRange store userId range e he)
      have h1 : uniqueTrackIdsFold store (eventsInRange store userId range) =
          ((eventsInRange store userId range).map (fun e => e.trackId)).foldl
            setInsert [] :=
        uniqueTrackIdsFold_eq store _ [] hmem
      rw [h1, length_foldl_setInsert_nil]
      exact ((eventsInRange_perm store userId range).map
        (fun e => e.trackId)).dedup.length_eq
  · exact fun input key => ⟨sortEntries_ranks input key, sortEntries_sorted input key⟩
  · intro l hl
    by_cases hE : (eventsInRange store userId range).isEmpty
    · have h4 : l = [] := by
        rw [aggregateForRange_songs, aggregateForRange_artists,
          aggregateForRange_albums, aggregateForRange_genres] at hl
        simpa [hE] using hl
      rw [h4]
      exact ⟨rfl, List.Pairwise.nil⟩
    · simp only [List.mem_cons, List.not_mem_nil, or_false] at hl
      rcases hl with rfl | rfl | rfl | rfl
      · rw [aggregateForRange_songs, if_neg hE]
        exact ⟨ranks_of_sortEntries_self _ _, sortEntries_sorted _ _⟩
      · rw [aggregateForRange_artists, if_neg hE]
        exact ⟨ranks_of_sortEntries_self _ _, sortEntries_sorted _ _⟩
      · rw [aggregateForRange_albums, if_neg hE]
        exact ⟨ranks_of_sortEntries_self _ _, sortEntries_sorted _ _⟩
      · rw [aggregateForRange_genres, if_neg hE]
        exact ⟨ranks_of_sortEntries_self _ _, sortEntries_sorted _ _⟩

/-- C4 witness: the theorem applied to a concrete store of four events over
two tracks and a concrete window. -/
theorem c4_witness :
    (aggregateForRange c4Store "u" c4Range).totalUniqueSongs =
      ((c4Store.playEvents.filter
        (fun e => e.userId = "u" && c4Range.fromMs ≤ e.playedAt &&
          e.playedAt ≤ c4Range.toMs)).map (fun e => e.trackId)).dedup.length
    ∧ List.Pairwise (keyOrder SortKey.recent)
        (sortEntries [] SortKey.recent) := by
  have h := c4_totalUniqueSongs_and_ranks c4Store "u" c4Range (by decide)
  exact ⟨h.1, (h.2.1 [] SortKey.recent).2⟩

/-! ## Lemmas about the feature accumulation (C7) -/

theorem featureFold_go (store : AnalyticsStore) :
    ∀ (events : List PlayEventRow) (acc : FeatureAcc),
      events.foldl (featureStep store) acc =
        { weight := acc.weight + (events.filter (completeEvent store)).length,
          energy := acc.energy +
            ((events.filter (completeEvent store)).map (eventEnergy store)).sum,
          danceability := acc.danceability +
            ((events.filter (completeEvent store)).map (eventDanceability store)).sum,
          valence := acc.valence +
            ((events.filter (completeEvent store)).map (eventValence store)).sum,
          tempo := acc.tempo +
            ((events.filter (completeEvent store)).map (eventTempo store)).sum } := by
  intro events
  induction events with
  | nil => intro acc; simp
  | cons e rest ih =>
    intro acc
    simp only [List.foldl_cons]
    rw [ih]
    rcases hfind : findTrack store e.trackId with _ | t
    · simp [featureStep, hfind, completeEvent]
    · rcases he : t.energy with _ | en <;> rcases hd : t.danceability with _ | da <;>
        rcases hv : t.valence with _ | va <;> rcases htm : t.tempo with _ | te <;>
        simp [featureStep, hfind, he, hd, hv, htm, completeEvent, trackComplete,
          eventEnergy, eventDanceability, eventValence, eventTempo] <;>
        exact ⟨by omega, by ring, by ring, by ring, by ring⟩

theorem featureFold_eq (store : AnalyticsStore) (events : List PlayEventRow) :
    featureFold store events =
      { weight := (events.filter (completeEvent store)).length,
        energy := ((events.filter (completeEvent store)).map (eventEnergy store)).sum,
        danceability :=
          ((events.filter (completeEvent store)).map (eventDanceability store)).sum,
        valence := ((events.filter (completeEvent store)).map (eventValence store)).sum,
        tempo := ((events.filter (completeEvent store)).map (eventTempo store)).sum } := by
  unfold featureFold
  rw [featureFold_go]
  simp

/-- C7 (amended): the averaged audio-feature vector is the play-count
weighted mean — the mean over the window's play events whose track has all
four feature values present; an event whose track misses any feature value
is excluded entirely rather than zero-filled, so a window whose only
complete-track event is `e1` averages to `e1`'s own feature values. -/
theorem c7_feature_mean_weighted (store : AnalyticsStore) (userId : String)
    (range : TimeRange) :
    ((aggregateForRange store userId range).featureAverages.energy =
      if 0 < ((eventsInRange store userId range).filter (completeEvent store)).length then
        roundTo 3 ((((eventsInRange store userId range).filter
            (completeEvent store)).map (eventEnergy store)).sum /
          (((eventsInRange store userId range).filter (completeEvent store)).length : ℚ))
      else 0)
    ∧ ((aggregateForRange store userId range).featureAverages.danceability =
      if 0 < ((eventsInRange store userId range).filter (completeEvent store)).length then
        roundTo 3 ((((eventsInRange store userId range).filter
            (completeEvent store)).map (eventDanceability store)).sum /
          (((eventsInRange store userId range).filter (completeEvent store)).length : ℚ))
      else 0)
    ∧ ((aggregateForRange store userId range).featureAverages.valence =
      if 0 < ((eventsInRange store userId range).filter (completeEvent store)).length then
        roundTo 3 ((((eventsInRange store userId range).filter
            (completeEvent store)).map (eventValence store)).sum /
          (((eventsInRange store userId range).filter (completeEvent store)).length : ℚ))
      else 0)
    ∧ ((aggregateForRange store userId range).featureAverages.tempo =
      if 0 < ((eventsInRange store userId range).filter (completeEvent store)).length then
        roundTo 1 ((((eventsInRange store userId range).filter
            (completeEvent store)).map (eventTempo store)).sum /
          (((eventsInRange store userId range).filter (completeEvent store)).length : ℚ))
      else 0)
    ∧ (∀ e1, (eventsInRange store userId range).filter (completeEvent store) = [e1] →
        (aggregateForRange store userId range).featureAverages.energy =
          roundTo 3 (eventEnergy store e1)) := by
  have hfa := aggregateForRange_featureAverages store userId range
  by_cases hE : (eventsInRange store userId range).isEmpty
  · have h0 : eventsInRange store userId range = [] := List.isEmpty_iff.mp hE
    rw [hfa, if_pos hE, h0]
    refine ⟨rfl, rfl, rfl, rfl, ?_⟩
    intro e1 h1
    simp at h1
  · rw [hfa, if_neg hE, featureFold_eq]
    refine ⟨rfl, rfl, rfl, rfl, ?_⟩
    intro e1 h1
    rw [h1]
    simp

/-- C7 counterexample: with track t1 (energy 4/5) played twice and track t3
(energy 1/5) played once, the implementation averages per play event to
3/5, while the mean over the window's complete tracks — the claim's wording —
is 1/2. -/
theorem roundQ_intCast (n : ℤ) : roundQ ((n : ℚ)) = n := by
  simp only [roundQ, Rat.num_intCast, Rat.den_intCast, Nat.cast_one]
  rw [Int.fdiv_eq_ediv _ (by norm_num)]
  omega

theorem c7_counterexample :
    (aggregateForRange c7Store "u" c7Range).featureAverages.energy = 3/5
    ∧ specTasteMeanEnergy c7Store "u" c7Range = 1/2
    ∧ (aggregateForRange c7Store "u" c7Range).featureAverages.energy ≠
        specTasteMeanEnergy c7Store "u" c7Range := by
  have hev : eventsInRange c7Store "u" c7Range =
      [{ userId := "u", trackId := "t3", playedAt := 3000 },
       { userId := "u", trackId := "t1", playedAt := 2000 },
       { userId := "u", trackId := "t1", playedAt := 1000 }] := rfl
  have henergy : (aggregateForRange c7Store "u" c7Range).featureAverages.energy = 3/5 := by
    rw [aggregateForRange_featureAverages, featureFold_eq, hev]
    have hfil : List.filter (completeEvent c7Store)
        [{ userId := "u", trackId := "t3", playedAt := 3000 },
         { userId := "u", trackId := "t1", playedAt := 2000 },
         { userId := "u", trackId := "t1", playedAt := 1000 }] =
        [{ userId := "u", trackId := "t3", playedAt := 3000 },
         { userId := "u", trackId := "t1", playedAt := 2000 },
         { userId := "u", trackId := "t1", playedAt := 1000 }] := rfl
    rw [hfil]
    have hmap : List.map (eventEnergy c7Store)
        [{ userId := "u", trackId := "t3", playedAt := 3000 },
         { userId := "u", trackId := "t1", playedAt := 2000 },
         { userId := "u", trackId := "t1", playedAt := 1000 }] =
        [1/5, 4/5, 4/5] := rfl
    rw [if_neg (by decide), hmap]
    have hsum : (([1/5, 4/5, 4/5] : List ℚ)).sum = 9/5 := by
      simp [List.sum_cons]
      norm_num
    simp only [hsum, List.length_cons, List.length_nil]
    rw [if_pos (by norm_num)]
    have h600 : ((9:ℚ)/5 / ((0 + 1 + 1 + 1 : ℕ) : ℚ) * 10 ^ 3) = ((600:ℤ):ℚ) := by
      push_cast
      norm_num
    unfold roundTo
    rw [h600, roundQ_intCast]
    norm_num
  have hspec : specTasteMeanEnergy c7Store "u" c7Range = 1/2 := by
    unfold specTasteMeanEnergy
    rw [hev]
    have hts : (List.map (fun e => e.trackId)
        [({ userId := "u", trackId := "t3", playedAt := 3000 } : PlayEventRow),
         { userId := "u", trackId := "t1", playedAt := 2000 },
         { userId := "u", trackId := "t1", playedAt := 1000 }]).dedup = ["t3", "t1"] := by
      decide
    rw [hts]
    dsimp only
    have htr : List.filter (fun t => trackComplete t)
        (List.filterMap (fun tid => findTrack c7Store tid) ["t3", "t1"]) =
        [c7Track3, c7Track1] := rfl
    rw [htr]
    have hmap2 : List.map (fun t : StoredTrack => t.energy.getD 0)
        [c7Track3, c7Track1] = [1/5, 4/5] := rfl
    rw [if_neg (by decide), hmap2]
    have hsum2 : (([1/5, 4/5] : List ℚ)).sum = 1 := by
      simp [List.sum_cons]
      norm_num
    simp only [hsum2, List.length_cons, List.length_nil]
    push_cast
    norm_num
  exact ⟨henergy, hspec, by rw [henergy, hspec]; norm_num⟩

/-- C7 witness: for a window holding one play of complete track t1 and one
play of incomplete track t2, the averaged energy is t1's energy alone. -/
theorem c7_witness :
    (eventsInRange c7WitnessStore "u" c7Range).filter (completeEvent c7WitnessStore) =
      [{ userId := "u", trackId := "t1", playedAt := 1000 }]
    ∧ (aggregateForRange c7WitnessStore "u" c7Range).featureAverages.energy =
        roundTo 3 (eventEnergy c7WitnessStore
          { userId := "u", trackId := "t1", playedAt := 1000 }) :=
  ⟨rfl, (c7_feature_mean_weighted c7WitnessStore "u" c7Range).2.2.2.2 _ rfl⟩

/-! ## Lemmas about association lists and the daily buckets (C9) -/

theorem alistGet_set_self [DecidableEq κ] (m : List (κ × β)) (k : κ) (v : β) :
    alistGet (alistSet m k v) k = some v := by
  induction m with
  | nil => simp [alistGet, alistSet]
  | cons e rest ih =>
    by_cases h : e.1 = k
    · simp [alistSet, h, alistGet]
    · simp only [alistSet, h, if_false]
      rw [show alistGet (e :: alistSet rest k v) k =
          alistGet (alistSet rest k v) k from ?_]
      · exact ih
      · simp [alistGet, List.find?_cons_of_neg, h]

theorem alistGet_set_ne [DecidableEq κ] (m : List (κ × β)) (k k2 : κ) (v : β)
    (hne : k2 ≠ k) : alistGet (alistSet m k v) k2 = alistGet m k2 := by
  induction m with
  | nil => simp [alistGet, alistSet, Ne.symm hne]
  | cons e rest ih =>
    by_cases h : e.1 = k
    · subst h
      simp [alistSet, alistGet, List.find?_cons_of_neg, Ne.symm hne]
    · simp only [alistSet, h, if_false]
      by_cases h2 : e.1 = k2
      · simp [alistGet, List.find?_cons_of_pos, h2]
      · simp only [alistGet] at ih ⊢
        rw [List.find?_cons_of_neg, List.find?_cons_of_neg]
        · exact ih
        · simp [h2]
        · simp [h2]

theorem mem_keys_alistSet [DecidableEq κ] (m : List (κ × β)) (k k2 : κ)
    (v : β) :
    k2 ∈ (alistSet m k v).map Prod.fst ↔ k2 = k ∨ k2 ∈ m.map Prod.fst := by
  induction m with
  | nil => simp [alistSet]
  | cons e rest ih =>
    by_cases h : e.1 = k
    · subst h
      simp [alistSet]
    · simp only [alistSet, h, if_false, List.map_cons, List.mem_cons, ih]
      tauto

theorem nodup_keys_alistSet [DecidableEq κ] (m : List (κ × β)) (k : κ) (v : β)
    (h : (m.map Prod.fst).Nodup) : ((alistSet m k v).map Prod.fst).Nodup := by
  induction m with
  | nil => simp [alistSet]
  | cons e rest ih =>
    rcases List.nodup_cons.mp h with ⟨he, hrest⟩
    by_cases hk : e.1 = k
    · subst hk
      simpa [alistSet] using h
    · simp only [alistSet, hk, if_false, List.map_cons]
      refine List.nodup_cons.mpr ⟨?_, ih hrest⟩
      intro hmem
      rcases (mem_keys_alistSet rest k e.1 v).mp hmem with h1 | h1
      · exact hk h1
      · exact he h1

theorem alistGet_eq_none_iff [DecidableEq κ] (m : List (κ × β)) (k : κ) :
    alistGet m k = none ↔ k ∉ m.map Prod.fst := by
  induction m with
  | nil => simp [alistGet]
  | cons e rest ih =>
    by_cases h : e.1 = k
    · simp [alistGet, List.find?_cons_of_pos, h]
    · simp only [alistGet] at ih
      simp [alistGet, List.find?_cons_of_neg, h, ih, Ne.symm h]

theorem mem_of_alistGet_eq_some [DecidableEq κ] (m : List (κ × β)) (k : κ)
    (v : β) (h : alistGet m k = some v) : (k, v) ∈ m := by
  induction m with
  | nil => simp [alistGet] at h
  | cons e rest ih =>
    by_cases he : e.1 = k
    · rw [show alistGet (e :: rest) k = some e.2 from by
        simp [alistGet, List.find?_cons_of_pos, he]] at h
      obtain rfl := Option.some_injective _ h
      have h2 : (k, e.2) = e := by rw [← he]
      rw [h2]
      exact List.mem_cons_self e rest
    · rw [show alistGet (e :: rest) k = alistGet rest k from by
        simp [alistGet, List.find?_cons_of_neg, he]] at h
      exact List.mem_cons_of_mem e (ih h)

theorem alistGet_of_mem_nodup [DecidableEq κ] (m : List (κ × β)) (k : κ)
    (v : β) (hnd : (m.map Prod.fst).Nodup) (hmem : (k, v) ∈ m) :
    alistGet m k = some v := by
  induction m with
  | nil => simp at hmem
  | cons e rest ih =>
    rcases List.nodup_cons.mp hnd with ⟨he, hrest⟩
    rcases List.mem_cons.mp hmem with h1 | h1
    · rw [← h1]
      simp [alistGet, List.find?_cons_of_pos]
    · have hke : e.1 ≠ k := by
        intro hk
        exact he (hk ▸ (List.mem_map.mpr ⟨(k, v), h1, rfl⟩))
      rw [show alistGet (e :: rest) k = alistGet rest k from by
        simp [alistGet, List.find?_cons_of_neg, hke]]
      exact ih hrest h1

theorem dailyFold_go (store : AnalyticsStore) :
    ∀ (events : List PlayEventRow) (m : List (Int × DailyBucket)) (k : Int),
      (∀ e ∈ events, (findTrack store e.trackId).isSome) →
      alistGet (events.foldl (dailyStep store) m) k =
        if (events.filter (fun e => dailyKey e.playedAt = k)).length = 0 then
          alistGet m k
        else
          some { plays := ((alistGet m k).getD { plays := 0, minutes := 0 }).plays +
                   (events.filter (fun e => dailyKey e.playedAt = k)).length,
                 minutes := ((alistGet m k).getD { plays := 0, minutes := 0 }).minutes +
                   ((events.filter (fun e => dailyKey e.playedAt = k)).map
                     (eventMinutes store)).sum } := by
  intro events
  induction events with
  | nil => intro m k _; simp
  | cons e rest ih =>
    intro m k h
    have he := h e (List.mem_cons_self e rest)
    obtain ⟨t, ht⟩ := Option.isSome_iff_exists.mp he
    have hstep : dailyStep store m e =
        alistSet m (dailyKey e.playedAt)
          { plays := ((alistGet m (dailyKey e.playedAt)).getD
              { plays := 0, minutes := 0 }).plays + 1,
            minutes := ((alistGet m (dailyKey e.playedAt)).getD
              { plays := 0, minutes := 0 }).minutes + minutesOf t } := by
      simp [dailyStep, ht]
    have hmin : eventMinutes store e = minutesOf t := by
      simp [eventMinutes, ht]
    have hrest : ∀ x ∈ rest, (findTrack store x.trackId).isSome :=
      fun x hx => h x (List.mem_cons_of_mem e hx)
    simp only [List.foldl_cons, hstep]
    rw [ih _ k hrest]
    by_cases hk : dailyKey e.playedAt = k
    · have hget : alistGet (alistSet m (dailyKey e.playedAt)
          { plays := ((alistGet m (dailyKey e.playedAt)).getD
              { plays := 0, minutes := 0 }).plays + 1,
            minutes := ((alistGet m (dailyKey e.playedAt)).getD
              { plays := 0, minutes := 0 }).minutes + minutesOf t }) k =
          some { plays := ((alistGet m k).getD { plays := 0, minutes := 0 }).plays + 1,
                 minutes := ((alistGet m k).getD
                   { plays := 0, minutes := 0 }).minutes + minutesOf t } := by
        rw [← hk]
        exact alistGet_set_self _ _ _
      have hfe : (e :: rest).filter (fun x => dailyKey x.playedAt = k) =
          e :: rest.filter (fun x => dailyKey x.playedAt = k) := by
        simp [List.filter_cons, hk]
      rw [hget, hfe]
      by_cases hc : (rest.filter (fun x => dailyKey x.playedAt = k)).length = 0
      · rw [if_pos hc]
        have hnil := List.length_eq_zero.mp hc
        rw [if_neg (by simp), hnil]
        simp [hmin]
      · rw [if_neg hc, if_neg (by simp)]
        simp only [Option.getD_some, List.length_cons, List.map_cons, List.sum_cons]
        refine congrArg some ?_
        refine DailyBucket.mk.injEq _ _ _ _ ▸ ?_
        constructor
        · omega
        · rw [hmin]
          ring
    · have hget2 : alistGet (alistSet m (dailyKey e.playedAt)
          { plays := ((alistGet m (dailyKey e.playedAt)).getD
              { plays := 0, minutes := 0 }).plays + 1,
            minutes := ((alistGet m (dailyKey e.playedAt)).getD
              { plays := 0, minutes := 0 }).minutes + minutesOf t }) k =
          alistGet m k :=
        alistGet_set_ne _ _ _ _ (fun hkk => hk hkk.symm)
      have hfe2 : (e :: rest).filter (fun x => dailyKey x.playedAt = k) =
          rest.filter (fun x => dailyKey x.playedAt = k) := by
        simp [List.filter_cons, hk]
      rw [hget2, hfe2]

theorem dailyFold_get (store : AnalyticsStore) (events : List PlayEventRow)
    (k : Int) (h : ∀ e ∈ events, (findTrack store e.trackId).isSome) :
    alistGet (dailyFold store events) k =
      if (events.filter (fun e => dailyKey e.playedAt = k)).length = 0 then none
      else
        some { plays := (events.filter (fun e => dailyKey e.playedAt = k)).length,
               minutes := ((events.filter (fun e => dailyKey e.playedAt = k)).map
                 (eventMinutes store)).sum } := by
  unfold dailyFold
  rw [dailyFold_go store events [] k h]
  by_cases hc : (events.filter (fun e => dailyKey e.playedAt = k)).length = 0
  · rw [if_pos hc, if_pos hc]
    rfl
  · rw [if_neg hc, if_neg hc]
    simp [alistGet]

theorem nodup_keys_dailyFold (store : AnalyticsStore)
    (events : List PlayEventRow) :
    ((dailyFold store events).map Prod.fst).Nodup := by
  unfold dailyFold
  have hgen : ∀ (l : List PlayEventRow) (m : List (Int × DailyBucket)),
      (m.map Prod.fst).Nodup → ((l.foldl (dailyStep store) m).map Prod.fst).Nodup := by
    intro l
    induction l with
    | nil => exact fun m hm => hm
    | cons e rest ih =>
      intro m hm
      simp only [List.foldl_cons]
      refine ih _ ?_
      unfold dailyStep
      rcases findTrack store e.trackId with _ | t
      · exact hm
      · exact nodup_keys_alistSet _ _ _ hm
  exact hgen events [] (by simp)

/-- C9 (amended): the daily time series buckets each play event under the
event's UTC calendar date (the date part of `playedAt.toISOString()`):
dates are pairwise distinct, every entry carries the play count and the
rounded summed minutes of the events on its UTC date, and every scanned
event has an entry for its UTC date. -/
theorem c9_daily_buckets (store : AnalyticsStore) (userId : String)
    (range : TimeRange)
    (h : ∀ e ∈ store.playEvents, (findTrack store e.trackId).isSome) :
    ((aggregateForRange store userId range).listeningOverTime.map
      (fun p => p.date)).Nodup
    ∧ (∀ p ∈ (aggregateForRange store userId range).listeningOverTime,
        p.plays = ((eventsInRange store userId range).filter
          (fun e => dailyKey e.playedAt = p.date)).length
        ∧ p.minutes = roundTo 1 (((eventsInRange store userId range).filter
            (fun e => dailyKey e.playedAt = p.date)).map (eventMinutes store)).sum
        ∧ 0 < p.plays)
    ∧ (∀ e ∈ eventsInRange store userId range,
        ∃ p ∈ (aggregateForRange store userId range).listeningOverTime,
          p.date = dailyKey e.playedAt) := by
  have hser := aggregateForRange_listeningOverTime store userId range
  by_cases hE : (eventsInRange store userId range).isEmpty
  · rw [hser, if_pos hE]
    have h0 : eventsInRange store userId range = [] := List.isEmpty_iff.mp hE
    refine ⟨by simp, by simp, ?_⟩
    rw [h0]
    simp
  · rw [hser, if_neg hE]
    have hmem : ∀ e ∈ eventsInRange store userId range,
        (findTrack store e.trackId).isSome :=
      fun e he => h e (mem_eventsInRange store userId range e he)
    have hnd := nodup_keys_dailyFold store (eventsInRange store userId range)
    have hperm : (sortByFn (fun a b : Int × DailyBucket => a.1 ≤ b.1)
        (dailyFold store (eventsInRange store userId range))).Perm
        (dailyFold store (eventsInRange store userId range)) :=
      perm_sortByFn _ _
    refine ⟨?_, ?_, ?_⟩
    · have h1 : ((sortByFn (fun a b : Int × DailyBucket => a.1 ≤ b.1)
          (dailyFold store (eventsInRange store userId range))).map
          (fun e => e.1)).Nodup := by
        have := (hperm.map (fun e : Int × DailyBucket => e.1)).symm
        exact this.nodup hnd
      rw [List.map_map]
      exact h1
    · intro p hp
      obtain ⟨pair, hpair, hpeq⟩ := List.mem_map.mp hp
      have hmemD := hperm.mem_iff.mp hpair
      have hget := alistGet_of_mem_nodup _ _ _ hnd
        (by rw [show ((pair.1, pair.2) : Int × DailyBucket) = pair from rfl]; exact hmemD)
      rw [dailyFold_get store _ pair.1 hmem] at hget
      by_cases hc : ((eventsInRange store userId range).filter
          (fun e => dailyKey e.playedAt = pair.1)).length = 0
      · rw [if_pos hc] at hget
        exact absurd hget (by simp)
      · rw [if_neg hc] at hget
        have hv := Option.some_injective _ hget
        have hdate : p.date = pair.1 := by rw [← hpeq]
        have hplays : p.plays = pair.2.plays := by rw [← hpeq]
        have hminutes : p.minutes = roundTo 1 pair.2.minutes := by rw [← hpeq]
        refine ⟨?_, ?_, ?_⟩
        · rw [hplays, ← hv, hdate]
        · rw [hminutes, ← hv, hdate]
        · rw [hplays, ← hv]
          simpa using Nat.pos_of_ne_zero hc
    · intro e he
      have hc : ((eventsInRange store userId range).filter
          (fun x => dailyKey x.playedAt = dailyKey e.playedAt)).length ≠ 0 := by
        intro h0
        have hnil := List.length_eq_zero.mp h0
        have : e ∈ (eventsInRange store userId range).filter
            (fun x => dailyKey x.playedAt = dailyKey e.playedAt) :=
          List.mem_filter.mpr ⟨he, by simp⟩
        rw [hnil] at this
        simp at this
      have hget := dailyFold_get store (eventsInRange store userId range)
        (dailyKey e.playedAt) hmem
      rw [if_neg hc] at hget
      have hmemD := mem_of_alistGet_eq_some _ _ _ hget
      have hmemS := hperm.mem_iff.mpr hmemD
      refine ⟨{ date := dailyKey e.playedAt,
                plays := ((eventsInRange store userId range).filter
                  (fun x => dailyKey x.playedAt = dailyKey e.playedAt)).length,
                minutes := roundTo 1 (((eventsInRange store userId range).filter
                  (fun x => dailyKey x.playedAt = dailyKey e.playedAt)).map
                    (eventMinutes store)).sum }, ?_, rfl⟩
      exact List.mem_map.mpr ⟨_, hmemS, rfl⟩

/-- C9 counterexample: one event played two hours after UTC midnight of epoch
day 0 is bucketed under UTC day 0, while its local calendar date in a UTC-5
environment is day -1 — the bucket key is the UTC date, not the local one. -/
theorem c9_counterexample :
    ((aggregateForRange c9Store "u" c9Range).listeningOverTime.map
      (fun p => p.date)) = [dailyKey 7200000]
    ∧ dailyKey 7200000 = 0
    ∧ localDailyKey (-18000000) 7200000 = -1 := by
  refine ⟨rfl, by decide, by decide⟩

/-- C9 witness: the amended theorem applied to the concrete one-event store. -/
theorem c9_witness :
    ((aggregateForRange c9Store "u" c9Range).listeningOverTime.map
      (fun p => p.date)).Nodup
    ∧ (∀ e ∈ eventsInRange c9Store "u" c9Range,
        ∃ p ∈ (aggregateForRange c9Store "u" c9Range).listeningOverTime,
          p.date = dailyKey e.playedAt) := by
  have h := c9_daily_buckets c9Store "u" c9Range (by decide)
  exact ⟨h.1, h.2.2⟩

/-! ## Lemmas about the duplicate-skipping inserts (C3, C10) -/

theorem insertManySkipDup_mem_keys [DecidableEq κ] (key : α → κ) :
    ∀ (rows : List α) (s : List α) (c : Nat) (k0 : κ),
      k0 ∈ (insertManySkipDup key (s, c) rows).1.map key ↔
        k0 ∈ s.map key ∨ k0 ∈ rows.map key := by
  intro rows
  induction rows with
  | nil => simp [insertManySkipDup]
  | cons r rest ih =>
    intro s c k0
    simp only [insertManySkipDup, List.foldl_cons] at ih ⊢
    by_cases hr : key r ∈ s.map key
    · rw [if_pos hr]
      rw [ih]
      simp only [List.map_cons, List.mem_cons]
      constructor
      · tauto
      · rintro (h | h | h)
        · exact Or.inl h
        · exact Or.inl (h ▸ hr)
        · exact Or.inr h
    · rw [if_neg hr]
      rw [ih]
      simp only [List.map_append, List.map_cons, List.map_nil, List.mem_append,
        List.mem_cons, List.mem_singleton, List.mem_cons]
      tauto

theorem insertManySkipDup_noop [DecidableEq κ] (key : α → κ) :
    ∀ (rows : List α) (s : List α) (c : Nat),
      (∀ r ∈ rows, key r ∈ s.map key) →
      insertManySkipDup key (s, c) rows = (s, c) := by
  intro rows
  induction rows with
  | nil => intro s c _; rfl
  | cons r rest ih =>
    intro s c h
    simp only [insertManySkipDup, List.foldl_cons] at ih ⊢
    rw [if_pos (h r (List.mem_cons_self r rest))]
    exact ih s c (fun x hx => h x (List.mem_cons_of_mem r hx))

theorem insertManySkipDup_all_present [DecidableEq κ] (key : α → κ)
    (rows : List α) (s : List α) (c : Nat) (r : α) (hr : r ∈ rows) :
    key r ∈ (insertManySkipDup key (s, c) rows).1.map key :=
  (insertManySkipDup_mem_keys key rows s c (key r)).mpr
    (Or.inr (List.mem_map.mpr ⟨r, hr, rfl⟩))

theorem insertManySkipDup_nodup_keys [DecidableEq κ] (key : α → κ) :
    ∀ (rows : List α) (s : List α) (c : Nat),
      (s.map key).Nodup → ((insertManySkipDup key (s, c) rows).1.map key).Nodup := by
  intro rows
  induction rows with
  | nil => exact fun s c h => h
  | cons r rest ih =>
    intro s c h
    simp only [insertManySkipDup, List.foldl_cons] at ih ⊢
    by_cases hr : key r ∈ s.map key
    · rw [if_pos hr]
      exact ih s c h
    · rw [if_neg hr]
      refine ih _ _ ?_
      rw [List.map_append]
      refine List.Nodup.append h (List.nodup_singleton _) ?_
      intro a ha hb
      rw [List.map_singleton, List.mem_singleton] at hb
      exact hr (hb ▸ ha)

theorem insertManySkipDup_count [DecidableEq κ] (key : α → κ) :
    ∀ (rows : List α) (s : List α) (c : Nat),
      (rows.map key).Nodup →
      (insertManySkipDup key (s, c) rows).2 =
        c + (rows.filter (fun r => key r ∉ s.map key)).length := by
  intro rows
  induction rows with
  | nil => intro s c _; simp [insertManySkipDup]
  | cons r rest ih =>
    intro s c h
    rw [List.map_cons] at h
    rcases List.nodup_cons.mp h with ⟨hr1, hrest⟩
    simp only [insertManySkipDup, List.foldl_cons] at ih ⊢
    by_cases hr : key r ∈ s.map key
    · rw [if_pos hr]
      rw [ih s c hrest]
      have hfe : (r :: rest).filter (fun x => decide (key x ∉ s.map key)) =
          rest.filter (fun x => decide (key x ∉ s.map key)) := by
        rw [List.filter_cons, if_neg (by simpa using hr)]
      rw [hfe]
    · rw [if_neg hr]
      rw [ih _ _ hrest]
      have hfe : (r :: rest).filter (fun x => decide (key x ∉ s.map key)) =
          r :: rest.filter (fun x => decide (key x ∉ s.map key)) := by
        rw [List.filter_cons, if_pos (by simpa using hr)]
      rw [hfe]
      have hcong : rest.filter (fun x => decide (key x ∉ (s ++ [r]).map key)) =
          rest.filter (fun x => decide (key x ∉ s.map key)) := by
        refine List.filter_congr ?_
        intro x hx
        have hxr : key x ≠ key r := by
          intro hxx
          exact hr1 (hxx ▸ List.mem_map.mpr ⟨x, hx, rfl⟩)
        simp [List.map_append, hxr]
      rw [hcong, List.length_cons]
      omega

theorem chunkArray_flatten_aux :
    ∀ (fuel : Nat) (l : List α) (n : Nat), l.length ≤ fuel →
      (chunkArray l n).flatten = l := by
  intro fuel
  induction fuel with
  | zero =>
    intro l n hl
    have h0 : l = [] := List.length_eq_zero.mp (Nat.le_zero.mp hl)
    subst h0
    by_cases hn : n = 0
    · subst hn
      rw [chunkArray.eq_def]
      simp
    · rw [chunkArray.eq_def]
      simp [hn]
  | succ f ih =>
    intro l n hl
    by_cases hn : n = 0
    · subst hn
      rw [chunkArray.eq_def]
      simp
    · cases l with
      | nil =>
        rw [chunkArray.eq_def]
        simp [hn]
      | cons x xs =>
        rw [chunkArray.eq_def]
        rw [dif_neg hn]
        simp only [List.flatten_cons]
        rw [ih _ n ?_]
        · exact List.take_append_drop n (x :: xs)
        · simp only [List.length_drop, List.length_cons]
          have hl2 : xs.length + 1 ≤ f + 1 := by simpa using hl
          omega

theorem chunkArray_flatten (l : List α) (n : Nat) :
    (chunkArray l n).flatten = l :=
  chunkArray_flatten_aux l.length l n le_rfl

theorem insertChunked_eq [DecidableEq κ] (key : α → κ) (store rows : List α)
    (size : Nat) :
    insertChunked key store rows size = insertManySkipDup key (store, 0) rows := by
  unfold insertChunked
  calc (chunkArray rows size).foldl
        (fun acc chunk => insertManySkipDup key acc chunk) (store, 0)
      = ((chunkArray rows size).flatten).foldl
          (fun acc r =>
            if (key r) ∈ acc.1.map key then acc else (acc.1 ++ [r], acc.2 + 1))
          (store, 0) := (List.foldl_flatten _ _ _).symm
    _ = insertManySkipDup key (store, 0) rows := by rw [chunkArray_flatten]; rfl

/-! ## Lemmas about the row-building loop -/

theorem buildPlayRows_invariant (pd : String → Option Int) (uid : String)
    (kn : List String) :
    ∀ (plays : List PlayInput) (seen : List (String × Int))
      (rows : List StoredPlay),
      seen = rows.map (fun r => (r.trackId, r.playedAt)) →
      (plays.foldl (buildPlayRowsStep pd uid kn) (seen, rows)).1 =
        (plays.foldl (buildPlayRowsStep pd uid kn) (seen, rows)).2.map
          (fun r => (r.trackId, r.playedAt)) := by
  intro plays
  induction plays with
  | nil => intro seen rows h; simpa using h
  | cons p rest ih =>
    intro seen rows h
    simp only [List.foldl_cons]
    by_cases hk : p.trackId ∈ kn
    · rcases hp : pd p.playedAt with _ | ms
      · rw [show buildPlayRowsStep pd uid kn (seen, rows) p = (seen, rows) from by
          simp [buildPlayRowsStep, hk, hp]]
        exact ih _ _ h
      · by_cases hseen : (p.trackId, ms) ∈ seen
        · rw [show buildPlayRowsStep pd uid kn (seen, rows) p = (seen, rows) from by
            simp [buildPlayRowsStep, hk, hp, hseen]]
          exact ih _ _ h
        · rw [show buildPlayRowsStep pd uid kn (seen, rows) p =
              (seen ++ [(p.trackId, ms)],
               rows ++ [{ userId := uid, trackId := p.trackId,
                          playedAt := ms, importSource := "json_restore" }]) from by
            simp [buildPlayRowsStep, hk, hp, hseen]]
          exact ih _ _ (by simp [h])
    · rw [show buildPlayRowsStep pd uid kn (seen, rows) p = (seen, rows) from by
        simp [buildPlayRowsStep, hk]]
      exact ih _ _ h

theorem buildPlayRows_seen_nodup (pd : String → Option Int) (uid : String)
    (kn : List String) :
    ∀ (plays : List PlayInput) (seen : List (String × Int))
      (rows : List StoredPlay),
      seen.Nodup →
      (plays.foldl (buildPlayRowsStep pd uid kn) (seen, rows)).1.Nodup := by
  intro plays
  induction plays with
  | nil => intro seen rows h; exact h
  | cons p rest ih =>
    intro seen rows h
    simp only [List.foldl_cons]
    by_cases hk : p.trackId ∈ kn
    · rcases hp : pd p.playedAt with _ | ms
      · rw [show buildPlayRowsStep pd uid kn (seen, rows) p = (seen, rows) from by
          simp [buildPlayRowsStep, hk, hp]]
        exact ih _ _ h
      · by_cases hseen : (p.trackId, ms) ∈ seen
        · rw [show buildPlayRowsStep pd uid kn (seen, rows) p = (seen, rows) from by
            simp [buildPlayRowsStep, hk, hp, hseen]]
          exact ih _ _ h
        · rw [show buildPlayRowsStep pd uid kn (seen, rows) p =
              (seen ++ [(p.trackId, ms)],
               rows ++ [{ userId := uid, trackId := p.trackId,
                          playedAt := ms, importSource := "json_restore" }]) from by
            simp [buildPlayRowsStep, hk, hp, hseen]]
          refine ih _ _ ?_
          refine List.Nodup.append h (List.nodup_singleton _) ?_
          intro a ha hb
          rw [List.mem_singleton] at hb
          exact hseen (hb ▸ ha)
    · rw [show buildPlayRowsStep pd uid kn (seen, rows) p = (seen, rows) from by
        simp [buildPlayRowsStep, hk]]
      exact ih _ _ h

theorem buildPlayRows_rowKey_nodup (pd : String → Option Int) (uid : String)
    (kn : List String) (plays : List PlayInput) :
    ((buildPlayRows pd uid kn plays).2.map
      (fun r => (r.trackId, r.playedAt))).Nodup := by
  have h1 := buildPlayRows_invariant pd uid kn plays [] [] (by simp)
  have h2 := buildPlayRows_seen_nodup pd uid kn plays [] [] (by simp)
  unfold buildPlayRows
  rw [← h1]
  exact h2

theorem buildPlayRows_userId (pd : String → Option Int) (uid : String)
    (kn : List String) :
    ∀ (plays : List PlayInput) (seen : List (String × Int))
      (rows : List StoredPlay),
      (∀ r ∈ rows, r.userId = uid) →
      ∀ r ∈ (plays.foldl (buildPlayRowsStep pd uid kn) (seen, rows)).2,
        r.userId = uid := by
  intro plays
  induction plays with
  | nil => intro seen rows h; exact h
  | cons p rest ih =>
    intro seen rows h
    simp only [List.foldl_cons]
    by_cases hk : p.trackId ∈ kn
    · rcases hp : pd p.playedAt with _ | ms
      · rw [show buildPlayRowsStep pd uid kn (seen, rows) p = (seen, rows) from by
          simp [buildPlayRowsStep, hk, hp]]
        exact ih _ _ h
      · by_cases hseen : (p.trackId, ms) ∈ seen
        · rw [show buildPlayRowsStep pd uid kn (seen, rows) p = (seen, rows) from by
            simp [buildPlayRowsStep, hk, hp, hseen]]
          exact ih _ _ h
        · rw [show buildPlayRowsStep pd uid kn (seen, rows) p =
              (seen ++ [(p.trackId, ms)],
               rows ++ [{ userId := uid, trackId := p.trackId,
                          playedAt := ms, importSource := "json_restore" }]) from by
            simp [buildPlayRowsStep, hk, hp, hseen]]
          refine ih _ _ ?_
          intro r hr
          rcases List.mem_append.mp hr with hr | hr
          · exact h r hr
          · rw [List.mem_singleton] at hr
            rw [hr]
    · rw [show buildPlayRowsStep pd uid kn (seen, rows) p = (seen, rows) from by
        simp [buildPlayRowsStep, hk]]
      exact ih _ _ h

theorem buildPlayRows_playKey_nodup (pd : String → Option Int) (uid : String)
    (kn : List String) (plays : List PlayInput) :
    ((buildPlayRows pd uid kn plays).2.map playKey).Nodup := by
  have hu : ∀ r ∈ (buildPlayRows pd uid kn plays).2, r.userId = uid :=
    buildPlayRows_userId pd uid kn plays [] [] (by simp)
  have hk := buildPlayRows_rowKey_nodup pd uid kn plays
  have hmap : (buildPlayRows pd uid kn plays).2.map playKey =
      ((buildPlayRows pd uid kn plays).2.map
        (fun r => (r.trackId, r.playedAt))).map (fun kv => (uid, kv)) := by
    rw [List.map_map]
    refine List.map_congr_left ?_
    intro r hr
    simp [playKey, hu r hr]
  rw [hmap]
  exact hk.map (fun a b hab => by
    simpa using congrArg Prod.snd hab)

theorem buildPlayRows_count (pd : String → Option Int) (uid : String)
    (kn : List String) :
    ∀ (plays : List PlayInput) (seen : List (String × Int))
      (rows : List StoredPlay),
      (plays.foldl (buildPlayRowsStep pd uid kn) (seen, rows)).2.length =
        rows.length +
          (((plays.filter (fun p => p.trackId ∈ kn ∧ (pd p.playedAt).isSome)).map
            (fun p => (p.trackId, (pd p.playedAt).getD 0))).toFinset \
              seen.toFinset).card := by
  intro plays
  induction plays with
  | nil => intro seen rows; simp
  | cons p rest ih =>
    intro seen rows
    simp only [List.foldl_cons]
    by_cases hk : p.trackId ∈ kn
    · rcases hp : pd p.playedAt with _ | ms
      · rw [show buildPlayRowsStep pd uid kn (seen, rows) p = (seen, rows) from by
          simp [buildPlayRowsStep, hk, hp]]
        rw [ih]
        have hfe : (p :: rest).filter
            (fun q => decide (q.trackId ∈ kn ∧ (pd q.playedAt).isSome)) =
            rest.filter (fun q => decide (q.trackId ∈ kn ∧ (pd q.playedAt).isSome)) := by
          rw [List.filter_cons, if_neg (by simp [hk, hp])]
        rw [hfe]
      · have hgood : (p :: rest).filter
            (fun q => decide (q.trackId ∈ kn ∧ (pd q.playedAt).isSome)) =
            p :: rest.filter (fun q => decide (q.trackId ∈ kn ∧ (pd q.playedAt).isSome)) := by
          rw [List.filter_cons, if_pos (by simp [hk, hp])]
        by_cases hseen : (p.trackId, ms) ∈ seen
        · rw [show buildPlayRowsStep pd uid kn (seen, rows) p = (seen, rows) from by
            simp [buildPlayRowsStep, hk, hp, hseen]]
          rw [ih, hgood]
          simp only [List.map_cons, hp, List.toFinset_cons, Option.getD_some]
          rw [Finset.insert_sdiff_of_mem _ (List.mem_toFinset.mpr hseen)]
        · rw [show buildPlayRowsStep pd uid kn (seen, rows) p =
              (seen ++ [(p.trackId, ms)],
               rows ++ [{ userId := uid, trackId := p.trackId,
                          playedAt := ms, importSource := "json_restore" }]) from by
            simp [buildPlayRowsStep, hk, hp, hseen]]
          rw [ih, hgood]
          simp only [List.map_cons, hp, List.toFinset_cons, Option.getD_some,
            List.length_append, List.length_cons, List.length_nil]
          have hsetfin : (seen ++ [(p.trackId, ms)]).toFinset =
              insert (p.trackId, ms) seen.toFinset := by
            rw [List.toFinset_append, Finset.union_comm]
            simp [Finset.insert_eq]
          rw [hsetfin]
          set K := (rest.filter
            (fun q => decide (q.trackId ∈ kn ∧ (pd q.playedAt).isSome))).map
              (fun q => (q.trackId, (pd q.playedAt).getD 0)) with hK
          have hns : (p.trackId, ms) ∉ seen.toFinset :=
            fun hmm => hseen (List.mem_toFinset.mp hmm)
          rw [Finset.insert_sdiff_of_not_mem _ hns, Finset.sdiff_insert]
          by_cases hkk : (p.trackId, ms) ∈ K.toFinset \ seen.toFinset
          · rw [Finset.insert_eq_self.mpr hkk]
            have h1 := Finset.card_erase_add_one hkk
            omega
          · rw [Finset.card_insert_of_not_mem hkk,
              Finset.erase_eq_of_not_mem hkk]
            omega
    · rw [show buildPlayRowsStep pd uid kn (seen, rows) p = (seen, rows) from by
        simp [buildPlayRowsStep, hk]]
      rw [ih]
      have hfe : (p :: rest).filter
          (fun q => decide (q.trackId ∈ kn ∧ (pd q.playedAt).isSome)) =
          rest.filter (fun q => decide (q.trackId ∈ kn ∧ (pd q.playedAt).isSome)) := by
        rw [List.filter_cons, if_neg (by simp [hk])]
      rw [hfe]

theorem buildPlayRows_length_eq (pd : String → Option Int) (uid : String)
    (kn : List String) (plays : List PlayInput) :
    (buildPlayRows pd uid kn plays).2.length =
      ((plays.filter (fun p => p.trackId ∈ kn ∧ (pd p.playedAt).isSome)).map
        (fun p => (p.trackId, (pd p.playedAt).getD 0))).dedup.length := by
  unfold buildPlayRows
  rw [buildPlayRows_count pd uid kn plays [] []]
  simp [List.card_toFinset]

theorem buildPlayRows_known_congr (pd : String → Option Int) (uid : String)
    (k1 k2 : List String) (hk : ∀ t, t ∈ k1 ↔ t ∈ k2) :
    ∀ (plays : List PlayInput) (acc : List (String × Int) × List StoredPlay),
      plays.foldl (buildPlayRowsStep pd uid k1) acc =
        plays.foldl (buildPlayRowsStep pd uid k2) acc := by
  intro plays
  induction plays with
  | nil => intro acc; rfl
  | cons p rest ih =>
    intro acc
    simp only [List.foldl_cons]
    have hstep : buildPlayRowsStep pd uid k1 acc p =
        buildPlayRowsStep pd uid k2 acc p := by
      unfold buildPlayRowsStep
      by_cases h : p.trackId ∈ k1
      · rw [if_pos h, if_pos ((hk _).mp h)]
      · rw [if_neg h, if_neg (fun hh => h ((hk _).mpr hh))]
    rw [hstep, ih]

theorem mem_jsDedupeIds (l : List String) (t : String) :
    t ∈ jsDedupeIds l ↔ t ∈ l := by
  unfold jsDedupeIds
  rw [mem_foldl_setInsert]
  simp

theorem mem_knownTrackIdsFor (store : ImportStore) (batch : List String)
    (plays : List PlayInput) (tid : String) :
    tid ∈ knownTrackIdsFor store batch plays ↔
      tid ∈ batch ∨ (tid ∈ plays.map (fun p => p.trackId) ∧ tid ∈ store.trackIds) := by
  unfold knownTrackIdsFor
  simp only [List.mem_append, List.mem_filter, mem_jsDedupeIds,
    decide_eq_true_eq]
  tauto

/-! ## Projection lemmas for `runJsonImport` -/

theorem runJsonImport_plays (pd : String → Option Int) (uid : String)
    (store : ImportStore) (payload : ImportPayload) :
    (runJsonImport pd uid store payload).1.plays =
      (insertManySkipDup playKey (store.plays, 0)
        (buildPlayRows pd uid
          (knownTrackIdsFor store (jsDedupeIds payload.trackIds) payload.plays)
          payload.plays).2).1 := by
  unfold runJsonImport
  dsimp only
  rw [insertChunked_eq]

theorem runJsonImport_importedPlays (pd : String → Option Int) (uid : String)
    (store : ImportStore) (payload : ImportPayload) :
    (runJsonImport pd uid store payload).2.importedPlays =
      (insertManySkipDup playKey (store.plays, 0)
        (buildPlayRows pd uid
          (knownTrackIdsFor store (jsDedupeIds payload.trackIds) payload.plays)
          payload.plays).2).2 := by
  unfold runJsonImport
  dsimp only
  rw [insertChunked_eq]

theorem runJsonImport_skippedPlays (pd : String → Option Int) (uid : String)
    (store : ImportStore) (payload : ImportPayload) :
    (runJsonImport pd uid store payload).2.skippedPlays =
      payload.plays.length -
        (buildPlayRows pd uid
          (knownTrackIdsFor store (jsDedupeIds payload.trackIds) payload.plays)
          payload.plays).2.length := by
  unfold runJsonImport
  dsimp only

theorem runJsonImport_trackIds_mem (pd : String → Option Int) (uid : String)
    (store : ImportStore) (payload : ImportPayload) (tid : String) :
    tid ∈ (runJsonImport pd uid store payload).1.trackIds ↔
      tid ∈ store.trackIds ∨ tid ∈ payload.trackIds := by
  have h1 : (runJsonImport pd uid store payload).1.trackIds =
      (insertManySkipDup (fun t : String => t) (store.trackIds, 0)
        (jsDedupeIds payload.trackIds)).1 := by
    unfold runJsonImport
    dsimp only
    rw [insertChunked_eq]
  rw [h1]
  have hself : ∀ l : List String, tid ∈ l ↔ tid ∈ l.map (fun t : String => t) := by
    intro l
    rw [List.map_id']
  refine (hself _).trans ((insertManySkipDup_mem_keys
    (fun t : String => t) (jsDedupeIds payload.trackIds)
    store.trackIds 0 tid).trans ?_)
  simp only [List.map_id']
  rw [mem_jsDedupeIds]

/-- C3: re-running the import with an identical payload leaves the stored
play events unchanged and inserts zero plays — the play-row construction
de-duplicates `(trackId, playedAt)` keys within the payload and the insert
skips keys already persisted under the `(userId, trackId, playedAt)` unique
key — and a store without duplicate keys never acquires two play events for
the same user, track and instant. -/
theorem c3_import_idempotent (pd : String → Option Int) (uid : String)
    (store : ImportStore) (payload : ImportPayload)
    (hnodup : (store.plays.map playKey).Nodup) :
    (runJsonImport pd uid (runJsonImport pd uid store payload).1 payload).1.plays =
      (runJsonImport pd uid store payload).1.plays
    ∧ (runJsonImport pd uid (runJsonImport pd uid store payload).1
        payload).2.importedPlays = 0
    ∧ ((runJsonImport pd uid store payload).1.plays.map playKey).Nodup := by
  have hkn : ∀ t, t ∈ knownTrackIdsFor (runJsonImport pd uid store payload).1
      (jsDedupeIds payload.trackIds) payload.plays ↔
      t ∈ knownTrackIdsFor store (jsDedupeIds payload.trackIds) payload.plays := by
    intro t
    rw [mem_knownTrackIdsFor, mem_knownTrackIdsFor, runJsonImport_trackIds_mem]
    have hbatch := mem_jsDedupeIds payload.trackIds t
    tauto
  have hrows : (buildPlayRows pd uid
      (knownTrackIdsFor (runJsonImport pd uid store payload).1
        (jsDedupeIds payload.trackIds) payload.plays) payload.plays).2 =
      (buildPlayRows pd uid
        (knownTrackIdsFor store (jsDedupeIds payload.trackIds) payload.plays)
        payload.plays).2 := by
    unfold buildPlayRows
    rw [buildPlayRows_known_congr pd uid _ _ hkn]
  have hpresent : ∀ r ∈ (buildPlayRows pd uid
      (knownTrackIdsFor store (jsDedupeIds payload.trackIds) payload.plays)
      payload.plays).2,
      playKey r ∈ (runJsonImport pd uid store payload).1.plays.map playKey := by
    intro r hr
    rw [runJsonImport_plays]
    exact insertManySkipDup_all_present playKey _ store.plays 0 r hr
  have hnoop := insertManySkipDup_noop playKey
    (buildPlayRows pd uid
      (knownTrackIdsFor store (jsDedupeIds payload.trackIds) payload.plays)
      payload.plays).2
    (runJsonImport pd uid store payload).1.plays 0 hpresent
  refine ⟨?_, ?_, ?_⟩
  · rw [runJsonImport_plays pd uid (runJsonImport pd uid store payload).1 payload,
      hrows, hnoop]
  · rw [runJsonImport_importedPlays pd uid (runJsonImport pd uid store payload).1
      payload, hrows, hnoop]
  · rw [runJsonImport_plays]
    exact insertManySkipDup_nodup_keys playKey _ store.plays 0 hnodup

/-- C3 witness: the theorem applied to an empty store and a payload holding
a repeated play and an unparseable one. -/
theorem c3_witness :
    (runJsonImport c3Parse "u" (runJsonImport c3Parse "u" c3Store c3Payload).1
      c3Payload).1.plays = (runJsonImport c3Parse "u" c3Store c3Payload).1.plays
    ∧ (runJsonImport c3Parse "u" (runJsonImport c3Parse "u" c3Store c3Payload).1
        c3Payload).2.importedPlays = 0
    ∧ ((runJsonImport c3Parse "u" c3Store c3Payload).1.plays.map playKey).Nodup :=
  c3_import_idempotent c3Parse "u" c3Store c3Payload (by decide)

/-- C10: `skippedPlays` counts exactly the submitted plays dropped while
building the insert rows (unknown track id, unparseable timestamp, or a
repeated in-payload `(trackId, playedAt)` key), while plays skipped by the
duplicate-skipping insert because they are already persisted are counted in
neither `skippedPlays` nor `importedPlays`; hence, at the concrete store
that already holds the submitted play, the two counters sum to strictly
less than the number of submitted plays. -/
theorem c10_skipped_plays (pd : String → Option Int) (uid : String)
    (store : ImportStore) (payload : ImportPayload) :
    (runJsonImport pd uid store payload).2.skippedPlays =
      payload.plays.length -
        ((payload.plays.filter (fun p =>
          (p.trackId ∈ payload.trackIds ∨ p.trackId ∈ store.trackIds) ∧
            (pd p.playedAt).isSome)).map
          (fun p => (p.trackId, (pd p.playedAt).getD 0))).dedup.length
    ∧ (runJsonImport pd uid store payload).2.importedPlays =
      ((buildPlayRows pd uid
        (knownTrackIdsFor store (jsDedupeIds payload.trackIds) payload.plays)
        payload.plays).2.filter
          (fun r => playKey r ∉ store.plays.map playKey)).length
    ∧ (runJsonImport pd uid store payload).2.importedPlays +
        (runJsonImport pd uid store payload).2.skippedPlays ≤
        payload.plays.length
    ∧ (runJsonImport c10Parse "u" c10Store c10Payload).2.importedPlays +
        (runJsonImport c10Parse "u" c10Store c10Payload).2.skippedPlays <
        c10Payload.plays.length := by
  have hfe : payload.plays.filter (fun p =>
      decide (p.trackId ∈ knownTrackIdsFor store (jsDedupeIds payload.trackIds)
        payload.plays ∧ (pd p.playedAt).isSome)) =
      payload.plays.filter (fun p =>
        decide ((p.trackId ∈ payload.trackIds ∨ p.trackId ∈ store.trackIds) ∧
          (pd p.playedAt).isSome)) := by
    refine List.filter_congr ?_
    intro p hp
    refine decide_eq_decide.mpr ?_
    have hmem := mem_knownTrackIdsFor store (jsDedupeIds payload.trackIds)
      payload.plays p.trackId
    have hbatch := mem_jsDedupeIds payload.trackIds p.trackId
    have href : p.trackId ∈ payload.plays.map (fun q => q.trackId) :=
      List.mem_map.mpr ⟨p, hp, rfl⟩
    constructor
    · rintro ⟨h1, h2⟩
      rcases hmem.mp h1 with h3 | h3
      · exact ⟨Or.inl (hbatch.mp h3), h2⟩
      · exact ⟨Or.inr h3.2, h2⟩
    · rintro ⟨h1, h2⟩
      refine ⟨hmem.mpr ?_, h2⟩
      rcases h1 with h3 | h3
      · exact Or.inl (hbatch.mpr h3)
      · exact Or.inr ⟨href, h3⟩
  have hskip : (runJsonImport pd uid store payload).2.skippedPlays =
      payload.plays.length -
        ((payload.plays.filter (fun p =>
          (p.trackId ∈ payload.trackIds ∨ p.trackId ∈ store.trackIds) ∧
            (pd p.playedAt).isSome)).map
          (fun p => (p.trackId, (pd p.playedAt).getD 0))).dedup.length := by
    rw [runJsonImport_skippedPlays, buildPlayRows_length_eq, hfe]
  have himp : (runJsonImport pd uid store payload).2.importedPlays =
      ((buildPlayRows pd uid
        (knownTrackIdsFor store (jsDedupeIds payload.trackIds) payload.plays)
        payload.plays).2.filter
          (fun r => playKey r ∉ store.plays.map playKey)).length := by
    rw [runJsonImport_importedPlays]
    rw [insertManySkipDup_count playKey _ store.plays 0
      (buildPlayRows_playKey_nodup pd uid _ payload.plays)]
    simp
  refine ⟨hskip, himp, ?_, by
    rw [runJsonImport_importedPlays, runJsonImport_skippedPlays]
    decide⟩
  have hb : (buildPlayRows pd uid
      (knownTrackIdsFor store (jsDedupeIds payload.trackIds) payload.plays)
      payload.plays).2.length ≤ payload.plays.length := by
    rw [buildPlayRows_length_eq]
    calc ((payload.plays.filter _).map
          (fun p => (p.trackId, (pd p.playedAt).getD 0))).dedup.length
        ≤ ((payload.plays.filter (fun p =>
            p.trackId ∈ knownTrackIdsFor store (jsDedupeIds payload.trackIds)
              payload.plays ∧ (pd p.playedAt).isSome)).map
          (fun p => (p.trackId, (pd p.playedAt).getD 0))).length :=
        (List.dedup_sublist _).length_le
      _ = (payload.plays.filter (fun p =>
            p.trackId ∈ knownTrackIdsFor store (jsDedupeIds payload.trackIds)
              payload.plays ∧ (pd p.playedAt).isSome)).length :=
        List.length_map _ _
      _ ≤ payload.plays.length := List.length_filter_le _ _
  have himp2 : (runJsonImport pd uid store payload).2.importedPlays ≤
      (buildPlayRows pd uid
        (knownTrackIdsFor store (jsDedupeIds payload.trackIds) payload.plays)
        payload.plays).2.length := by
    rw [himp]
    exact List.length_filter_le _ _
  have hskip2 := runJsonImport_skippedPlays pd uid store payload
  omega

/-- C5: with a cached row for (user, today in UTC) present, a forced call
fails with the regenerate-limit error exactly when less than one hour has
elapsed since the row's `createdAt`; a forced call at or after one hour
recomputes and overwrites the row in place; a non-forced call returns the
cached row (`fromCache = true`) regardless of elapsed time. -/
theorem c5_regenerate_cooldown (createdAt now : Int) :
    (dailyRecGate (some createdAt) true now = RecRunOutcome.throttled ↔
      now - createdAt < regenerateCooldownMs)
    ∧ (regenerateCooldownMs ≤ now - createdAt →
        dailyRecGate (some createdAt) true now = RecRunOutcome.computedOverwrite)
    ∧ dailyRecGate (some createdAt) false now = RecRunOutcome.servedFromCache := by
  refine ⟨?_, ?_, ?_⟩
  · unfold dailyRecGate
    by_cases h : now - createdAt < regenerateCooldownMs
    · simp [h]
    · simp [h]
  · intro h
    unfold dailyRecGate
    simp only [Bool.not_true, Bool.false_eq_true, if_false]
    rw [if_neg (by omega)]
  · unfold dailyRecGate
    simp

/-- C5 witness: a forced call 10 minutes after creation is throttled, a
forced call 61 minutes after creation overwrites, and a non-forced call one
week later is served from cache. -/
theorem c5_witness :
    dailyRecGate (some 0) true 600000 = RecRunOutcome.throttled
    ∧ dailyRecGate (some 0) true 3660000 = RecRunOutcome.computedOverwrite
    ∧ dailyRecGate (some 0) false 604800000 = RecRunOutcome.servedFromCache :=
  ⟨(c5_regenerate_cooldown 0 600000).1.mpr (by norm_num [regenerateCooldownMs]),
   (c5_regenerate_cooldown 0 3660000).2.1 (by norm_num [regenerateCooldownMs]),
   (c5_regenerate_cooldown 0 604800000).2.2⟩

/-! ## ApiGateway lemmas and claim C8 -/

theorem spotifyRequestLoop_fail_at (responses : Nat → HttpResponse)
    (refreshResult : Nat → Except SpotifyErr Unit) (maxRetries k : Nat)
    (hk : k ≤ maxRetries)
    (hpre : ∀ j, j < k → (responses j).status = 401 ∨ (responses j).status = 429)
    (hrefresh : ∀ j, j < k → (responses j).status = 401 →
      refreshResult j = .ok ())
    (hnotok : responseOk (responses k) = false)
    (h401 : (responses k).status ≠ 401) (h429 : (responses k).status ≠ 429) :
    ∀ d attempt, k - attempt = d → attempt ≤ k →
      spotifyRequestLoop responses refreshResult maxRetries attempt =
        .error (.apiError "Spotify API request failed" (responses k).status
          (some (responses k).body)) := by
  intro d
  induction d with
  | zero =>
    intro attempt hd hak
    have hek : attempt = k := by omega
    subst hek
    rw [spotifyRequestLoop]
    rw [dif_pos hk]
    rw [if_neg h401, if_neg h429]
    simp [hnotok]
  | succ n ih =>
    intro attempt hd hak
    have hlt : attempt < k := by omega
    rw [spotifyRequestLoop]
    rw [dif_pos (by omega)]
    rcases hpre attempt hlt with h | h
    · rw [if_pos h, hrefresh attempt hlt h]
      exact ih (attempt + 1) (by omega) (by omega)
    · rw [if_neg (by omega), if_pos h]
      exact ih (attempt + 1) (by omega) (by omega)

/-- C8: whenever the gateway reaches a provider response whose status is not
a success, not 401 and not 429 — every earlier attempt having been a 401
with successful refresh or a 429 — the request function fails immediately
with a typed `SpotifyApiError` carrying that status and the parsed body; in
particular the outcome is fully determined by the responses up to that
attempt, so no retry is performed after it. -/
theorem c8_non_retryable_fails_immediately (responses : Nat → HttpResponse)
    (refreshResult : Nat → Except SpotifyErr Unit) (maxRetries k : Nat)
    (hk : k ≤ maxRetries)
    (hpre : ∀ j, j < k → (responses j).status = 401 ∨ (responses j).status = 429)
    (hrefresh : ∀ j, j < k → (responses j).status = 401 →
      refreshResult j = .ok ())
    (hnotok : responseOk (responses k) = false)
    (h401 : (responses k).status ≠ 401) (h429 : (responses k).status ≠ 429) :
    spotifyRequestFn responses refreshResult maxRetries =
      .error (.apiError "Spotify API request failed" (responses k).status
        (some (responses k).body))
    ∧ (∀ (responses2 : Nat → HttpResponse)
        (refresh2 : Nat → Except SpotifyErr Unit),
        (∀ j, j ≤ k → responses2 j = responses j) →
        (∀ j, j ≤ k → refresh2 j = refreshResult j) →
        spotifyRequestFn responses2 refresh2 maxRetries =
          spotifyRequestFn responses refreshResult maxRetries) := by
  have hmain := spotifyRequestLoop_fail_at responses refreshResult maxRetries k
    hk hpre hrefresh hnotok h401 h429 k 0 rfl (Nat.zero_le k)
  refine ⟨hmain, ?_⟩
  intro responses2 refresh2 hr2 hf2
  have hmain2 := spotifyRequestLoop_fail_at responses2 refresh2 maxRetries k
    hk
    (fun j hj => by rw [hr2 j (le_of_lt hj)]; exact hpre j hj)
    (fun j hj hs => by
      rw [hf2 j (le_of_lt hj)]
      exact hrefresh j hj (by rw [← hr2 j (le_of_lt hj)]; exact hs))
    (by rw [hr2 k le_rfl]; exact hnotok)
    (by rw [hr2 k le_rfl]; exact h401)
    (by rw [hr2 k le_rfl]; exact h429)
    k 0 rfl (Nat.zero_le k)
  unfold spotifyRequestFn
  rw [hmain, hmain2, hr2 k le_rfl]

/-- C8 witness: a 404 on the first attempt fails at once with the typed
error carrying the status and body. -/
theorem c8_witness :
    spotifyRequestFn (fun _ => { status := 404, body := Json.null })
      (fun _ => .ok ()) 5 =
      .error (.apiError "Spotify API request failed" 404 (some Json.null)) :=
  (c8_non_retryable_fails_immediately
    (fun _ => { status := 404, body := Json.null }) (fun _ => .ok ()) 5 0
    (by omega) (fun j hj => absurd hj (by omega))
    (fun j hj _ => absurd hj (by omega)) (by decide) (by decide) (by decide)).1

/-! ## Claim C2: import format detection order -/

/-- C2 counterexample: a payload whose single element carries the fields of
both privacy-export schemas matches the name-based and URI-based schemas at
once, and the normalizer detects it as the URI-based full privacy export —
the URI-based schema is tried before the name-based one, not after it. -/
theorem c2_counterexample :
    matchesPrivacy bothPrivacyPayload = true
    ∧ matchesFullPrivacy bothPrivacyPayload = true
    ∧ detectImportFormat bothPrivacyPayload = ImportFormat.uriBased
    ∧ detectImportFormat bothPrivacyPayload ≠ ImportFormat.nameBased := by
  refine ⟨by decide, by decide, by decide, by decide⟩

/-- C2 (amended): the normalizer detects the format by schema-match attempts
in the order Native canonical shape, then URI-based privacy export, then
name-based privacy export; a payload matching more than one schema is
detected as the format earliest in this order. -/
theorem c2_detection_order (j : Json) :
    (detectImportFormat j = ImportFormat.native ↔ matchesRestore j = true)
    ∧ (detectImportFormat j = ImportFormat.uriBased ↔
        (matchesRestore j = false ∧ matchesFullPrivacy j = true))
    ∧ (detectImportFormat j = ImportFormat.nameBased ↔
        (matchesRestore j = false ∧ matchesFullPrivacy j = false ∧
          matchesPrivacy j = true))
    ∧ (detectImportFormat j = ImportFormat.unsupported ↔
        (matchesRestore j = false ∧ matchesFullPrivacy j = false ∧
          matchesPrivacy j = false)) := by
  unfold detectImportFormat
  by_cases h1 : matchesRestore j <;> by_cases h2 : matchesFullPrivacy j <;>
    by_cases h3 : matchesPrivacy j <;>
    simp [h1, h2, h3]

/-! ## Claim C6: recommendation scoring -/

/-- C6: every candidate's score is
`roundTo 4 (1 - (|Δenergy| + |Δdanceability| + |Δvalence| + |Δtempo|/220)/4
+ 0.07·[no artist known] + 0.04·[some genre new])` against the taste
profile, a candidate without features being scored against the neutral
default vector; and two candidates with identical feature vectors and
identical genre novelty, one having a seed artist and the other none,
differ by exactly 0.07 before rounding. -/
theorem c6_scoring (profile : TasteProfile) (knownArtistIds knownGenres : List String)
    (c c1 c2 : RecCandidate) :
    ((scoreCandidate profile knownArtistIds knownGenres c).score =
      roundTo 4 (1 -
        (|profile.energy - (c.features.getD neutralFeatureVector).energy| +
         |profile.danceability - (c.features.getD neutralFeatureVector).danceability| +
         |profile.valence - (c.features.getD neutralFeatureVector).valence| +
         |profile.tempo - (c.features.getD neutralFeatureVector).tempo| / 220) / 4 +
        ((if ∀ a ∈ c.track.artists, a.id ∉ knownArtistIds then (0.07 : ℚ) else 0) +
         (if ∃ g ∈ c.candidateGenres, g ∉ knownGenres then (0.04 : ℚ) else 0))))
    ∧ (c.features = none →
        scoreRawOf profile knownArtistIds knownGenres c =
          scoreRawOf profile knownArtistIds knownGenres
            { c with features := some neutralFeatureVector })
    ∧ (c1.features = c2.features →
        ((∃ g ∈ c1.candidateGenres, g ∉ knownGenres) ↔
          (∃ g ∈ c2.candidateGenres, g ∉ knownGenres)) →
        (∃ a ∈ c1.track.artists, a.id ∈ knownArtistIds) →
        (∀ a ∈ c2.track.artists, a.id ∉ knownArtistIds) →
        scoreRawOf profile knownArtistIds knownGenres c2 -
          scoreRawOf profile knownArtistIds knownGenres c1 = (0.07 : ℚ)) := by
  refine ⟨?_, ?_, ?_⟩
  · unfold scoreCandidate scoreRawOf distance
    dsimp only
    have hart : ((c.track.artists.all fun artist =>
        decide (artist.id ∉ knownArtistIds)) = true) ↔
        ∀ a ∈ c.track.artists, a.id ∉ knownArtistIds := by
      simp
    have hgen : ((c.candidateGenres.any fun genre =>
        decide (genre ∉ knownGenres)) = true) ↔
        ∃ g ∈ c.candidateGenres, g ∉ knownGenres := by
      simp
    rw [if_congr hart rfl rfl, if_congr hgen rfl rfl]
  · intro h
    unfold scoreRawOf
    rw [h]
    rfl
  · intro hfeat hgeq hknown hnew
    unfold scoreRawOf distance
    dsimp only
    have ha1 : (c1.track.artists.all fun artist =>
        decide (artist.id ∉ knownArtistIds)) = false := by
      rw [List.all_eq_false]
      obtain ⟨a, ha, haa⟩ := hknown
      exact ⟨a, ha, by simpa using haa⟩
    have ha2 : (c2.track.artists.all fun artist =>
        decide (artist.id ∉ knownArtistIds)) = true := by
      simp only [List.all_eq_true, decide_eq_true_eq]
      exact hnew
    have h1 : ((c1.candidateGenres.any fun genre =>
        decide (genre ∉ knownGenres)) = true) ↔
        ((c2.candidateGenres.any fun genre =>
          decide (genre ∉ knownGenres)) = true) := by
      simpa using hgeq
    have hgb : (c1.candidateGenres.any fun genre => decide (genre ∉ knownGenres)) =
        (c2.candidateGenres.any fun genre => decide (genre ∉ knownGenres)) := by
      rcases Bool.eq_false_or_eq_true
          (c1.candidateGenres.any fun genre => decide (genre ∉ knownGenres))
        with hc1 | hc1 <;>
        rcases Bool.eq_false_or_eq_true
            (c2.candidateGenres.any fun genre => decide (genre ∉ knownGenres))
          with hc2 | hc2
      · rw [hc1, hc2]
      · exact absurd (h1.mp hc1) (by rw [hc2]; simp)
      · exact absurd (h1.mpr hc2) (by rw [hc1]; simp)
      · rw [hc1, hc2]
    rw [hfeat, ha1, ha2, hgb]
    simp only [Bool.false_eq_true, if_false, if_true]
    ring

/-- C6 witness: two candidates with the neutral feature vector and no
genres, one by a seed artist and one by an unknown artist, differ by
exactly 0.07 before rounding. -/
theorem c6_witness :
    scoreRawOf neutralFeatureVector ["ka"] []
      { track := { id := "x2", name := "X2",
                   artists := [{ id := "ua", name := "U" }],
                   album := { id := "al", name := "AL" } },
        features := some neutralFeatureVector, candidateGenres := [] } -
    scoreRawOf neutralFeatureVector ["ka"] []
      { track := { id := "x1", name := "X1",
                   artists := [{ id := "ka", name := "K" }],
                   album := { id := "al", name := "AL" } },
        features := some neutralFeatureVector, candidateGenres := [] } =
      (0.07 : ℚ) :=
  (c6_scoring neutralFeatureVector ["ka"] []
    { track := { id := "x1", name := "X1",
                 artists := [{ id := "ka", name := "K" }],
                 album := { id := "al", name := "AL" } },
      features := some neutralFeatureVector, candidateGenres := [] }
    { track := { id := "x1", name := "X1",
                 artists := [{ id := "ka", name := "K" }],
                 album := { id := "al", name := "AL" } },
      features := some neutralFeatureVector, candidateGenres := [] }
    { track := { id := "x2", name := "X2",
                 artists := [{ id := "ua", name := "U" }],
                 album := { id := "al", name := "AL" } },
      features := some neutralFeatureVector, candidateGenres := [] }).2.2
    rfl Iff.rfl (by simp) (by simp)

/-! ## Claim C1: seed-strategy fallback error handling -/

/-- C1 counterexample: with one track seed and one artist seed, the first
seed combination fails with HTTP 401 and the loop swallows it like any other
4xx, succeeding with the later tracks-only combination instead of
propagating the 401. -/
theorem c1_counterexample :
    c1Oracle { seedTracks := ["t"], seedArtists := ["a"], seedGenres := [],
               label := "tracks+artists+genres" } = .error (.api 401)
    ∧ fetchRecommendationCandidates (.ok []) c1Oracle ["t"] ["a"] [] =
        .ok [c1Track] := by
  exact ⟨by decide, by decide⟩

/-- C1 (amended): in the strategy loop, a strategy that returns no candidate
or fails with any 4xx — including 401 — is swallowed and the next strategy
is tried, while a status outside 400-499 or a non-API error aborts the loop
immediately and propagates; the first strategy returning at least one
candidate wins. -/
theorem c1_strategy_fallback
    (recOracle : SeedRequest → Except RequestFailure (List SpotifyTrack))
    (pre post : List SeedRequest) (s : SeedRequest) :
    ∀ b : Bool, (∀ p ∈ pre, swallowedBy recOracle p) →
    ((∀ ts, recOracle s = .ok ts → 0 < ts.length →
        strategyLoop recOracle (pre ++ s :: post) b = .ok ts)
    ∧ (∀ st, recOracle s = .error (.api st) → (st < 400 ∨ 500 ≤ st) →
        strategyLoop recOracle (pre ++ s :: post) b = .error (.apiFailure st))
    ∧ (recOracle s = .error .other →
        strategyLoop recOracle (pre ++ s :: post) b = .error .otherFailure)
    ∧ (∀ st, recOracle s = .error (.api st) → 400 ≤ st → st < 500 →
        strategyLoop recOracle (pre ++ s :: post) b =
          strategyLoop recOracle post true)) := by
  induction pre with
  | nil =>
    intro b _
    refine ⟨?_, ?_, ?_, ?_⟩
    · intro ts hts hlen
      simp only [List.nil_append, strategyLoop, hts]
      rw [if_pos hlen]
    · intro st hst hr
      simp only [List.nil_append, strategyLoop, hst]
      rw [if_neg (by omega)]
    · intro hst
      simp only [List.nil_append, strategyLoop, hst]
    · intro st hst h4 h5
      simp only [List.nil_append, strategyLoop, hst]
      rw [if_pos ⟨h4, h5⟩]
  | cons p rest ih =>
    intro b hpre
    have hp := hpre p (List.mem_cons_self p rest)
    have hpre2 : ∀ q ∈ rest, swallowedBy recOracle q :=
      fun q hq => hpre q (List.mem_cons_of_mem p hq)
    rcases hp with ⟨ts0, hts0, hlen0⟩ | ⟨st0, hst0, h40, h50⟩
    · have hstep : strategyLoop recOracle ((p :: rest) ++ s :: post) b =
          strategyLoop recOracle (rest ++ s :: post) b := by
        simp only [List.cons_append, strategyLoop, hts0]
        rw [if_neg (by omega)]
        rfl
      obtain ⟨ih1, ih2, ih3, ih4⟩ := ih b hpre2
      refine ⟨?_, ?_, ?_, ?_⟩
      · intro ts hts hlen
        rw [hstep]
        exact ih1 ts hts hlen
      · intro st hst hr
        rw [hstep]
        exact ih2 st hst hr
      · intro hst
        rw [hstep]
        exact ih3 hst
      · intro st hst h4 h5
        rw [hstep]
        exact ih4 st hst h4 h5
    · have hstep : strategyLoop recOracle ((p :: rest) ++ s :: post) b =
          strategyLoop recOracle (rest ++ s :: post) true := by
        simp only [List.cons_append, strategyLoop, hst0]
        rw [if_pos ⟨h40, h50⟩]
        rfl
      obtain ⟨ih1, ih2, ih3, ih4⟩ := ih true hpre2
      refine ⟨?_, ?_, ?_, ?_⟩
      · intro ts hts hlen
        rw [hstep]
        exact ih1 ts hts hlen
      · intro st hst hr
        rw [hstep]
        exact ih2 st hst hr
      · intro hst
        rw [hstep]
        exact ih3 hst
      · intro st hst h4 h5
        rw [hstep]
        exact ih4 st hst h4 h5

/-- C1 witness: a first strategy failing with 404 is swallowed and the
second strategy's single candidate is returned. -/
theorem c1_witness :
    strategyLoop c1WitnessOracle
      [{ seedTracks := ["x"], seedArtists := [], seedGenres := [],
         label := "first" },
       { seedTracks := ["y"], seedArtists := [], seedGenres := [],
         label := "second" }] false = .ok [c1Track] := by
  have h := (c1_strategy_fallback c1WitnessOracle
    [{ seedTracks := ["x"], seedArtists := [], seedGenres := [],
       label := "first" }] []
    { seedTracks := ["y"], seedArtists := [], seedGenres := [],
      label := "second" }) false ?_
  · exact h.1 [c1Track] (by decide) (by decide)
  · intro p hp
    rw [List.mem_singleton] at hp
    rw [hp]
    exact Or.inr ⟨404, by decide, by omega⟩
